import Mathlib

/-!
Shallow embedding of the simulation kernel of the `thronglets` repository:
agent inventories and the agent manager (`src/core/agents`), the location
graph (`src/core/world/location_graph.py`), the action model and the
transactional action interpreter (`src/core/actions`), the request rate
limiter (`src/core/cognition/rate_limiter.py`), the lifecycle hook manager
(`src/core/simulation/lifecycle_hooks.py`) and the tick engine's phase
order (`src/core/simulation/tick_engine.py`).

Python dictionaries are embedded as association lists with unique keys
(`List (String × _)`); machine floats that the kernel only ever compares
and adds (timestamps, cooldown durations, travel costs) are embedded as
rationals; Python exceptions are embedded as `Except String`.
-/

namespace Thronglets

/-- An inventory: a Python dict mapping item type to quantity, embedded as an
association list with unique keys. -/
abbrev Inventory := List (String × Int)

/-- `inv.get(item, 0)` on a Python dict. -/
def invGet (inv : Inventory) (item : String) : Int :=
  ((List.lookup item inv).getD 0)

/-- `inv.pop(item, None)` on a Python dict: remove the key. -/
def invErase (inv : Inventory) (item : String) : Inventory :=
  List.filter (fun p => p.1 ≠ item) inv

/-- `inv[item] = v` on a Python dict: bind `item` to `v`, leaving every other
key bound as before. -/
def invSet (inv : Inventory) (item : String) (v : Int) : Inventory :=
  (item, v) :: invErase inv item

/-- `sum(inv.values())` on a Python dict. -/
def invTotal (inv : Inventory) : Int :=
  (List.map (fun p => p.2) inv).sum

/-- The keys of an inventory. -/
def invKeys (inv : Inventory) : List String :=
  List.map (fun p => p.1) inv

/-- Well-formedness of the association-list embedding of a dict: keys are
unique (every Python dict satisfies this). -/
def invWF (inv : Inventory) : Prop :=
  (invKeys inv).Nodup

instance (inv : Inventory) : Decidable (invWF inv) :=
  List.nodupDecidable (invKeys inv)

/-- All quantities in the inventory are nonnegative. -/
def invNonneg (inv : Inventory) : Prop :=
  ∀ p ∈ inv, (0 : Int) ≤ p.2

instance (inv : Inventory) : Decidable (invNonneg inv) := by
  unfold invNonneg
  infer_instance

/-- `AgentState` (src/core/agents/agent_state.py): the fields the kernel
mutates.  Needs and reputation are never read by the interpreter paths under
verification and are omitted; skills are kept because crafting mutates
them. -/
structure AgentState where
  id : String
  name : String
  location : String
  inventory : Inventory
  capacity : Int
  skills : List (String × ℚ)
deriving DecidableEq

/-- `AgentState.inventory_count`: `sum(self.inventory.values())`. -/
def AgentState.inventoryCount (a : AgentState) : Int :=
  invTotal a.inventory

/-- `AgentState.inventory_space`: `self.capacity - self.inventory_count`. -/
def AgentState.inventorySpace (a : AgentState) : Int :=
  a.capacity - a.inventoryCount

/-- The `AgentManager`'s `_agents` dict (src/core/agents/agent_manager.py),
keyed by agent id. -/
abbrev AgentManager := List (String × AgentState)

/-- `AgentManager.get_agent`. -/
def getAgent (m : AgentManager) (agentId : String) : Option AgentState :=
  List.lookup agentId m

/-- Replace the entry for `agentId` (Python mutates the stored object in
place; the entry set and every other entry are unchanged). -/
def setAgent (m : AgentManager) (agentId : String) (a : AgentState) : AgentManager :=
  List.map (fun p => if p.1 = agentId then (agentId, a) else p) m

/-- `AgentManager.get_agent_or_raise`: a missing agent raises `KeyError`,
embedded as `Except.error`. -/
def getAgentOrRaise (m : AgentManager) (agentId : String) : Except String AgentState :=
  match getAgent m agentId with
  | none => Except.error ("Agent with ID " ++ agentId ++ " not found")
  | some a => Except.ok a

/-- `AgentManager.update_agent_inventory` (src/core/agents/agent_manager.py
lines 75-93): add `delta` of `item` to the agent's inventory; refuse (return
`false`, no mutation) when the result would be negative or a positive delta
does not fit the remaining space; a count that reaches zero removes the
key. -/
def updateAgentInventory (m : AgentManager) (agentId item : String) (delta : Int) :
    Except String (Bool × AgentManager) := do
  let a ← getAgentOrRaise m agentId
  let current := invGet a.inventory item
  let newCount := current + delta
  if newCount < 0 then
    return (false, m)
  else if delta > 0 ∧ a.inventorySpace < delta then
    return (false, m)
  else
    let inv' := if newCount = 0 then invErase a.inventory item
                else invSet a.inventory item newCount
    return (true, setAgent m agentId { a with inventory := inv' })

/-- `AgentManager.update_agent_location`. -/
def updateAgentLocation (m : AgentManager) (agentId newLocation : String) :
    Except String AgentManager := do
  let a ← getAgentOrRaise m agentId
  return setAgent m agentId { a with location := newLocation }

/-- `AgentManager.update_agent_skill`: clamp at 0 from below. -/
def updateAgentSkill (m : AgentManager) (agentId skill : String) (delta : ℚ) :
    Except String AgentManager := do
  let a ← getAgentOrRaise m agentId
  let current := ((List.lookup skill a.skills).getD 0)
  let skills' := (skill, max 0 (current + delta)) ::
    List.filter (fun p => p.1 ≠ skill) a.skills
  return setAgent m agentId { a with skills := skills' }

/-- Generic association-list erase: `del d[k]` on a Python dict. -/
def assocErase {κ α : Type} [DecidableEq κ] (l : List (κ × α)) (k : κ) : List (κ × α) :=
  List.filter (fun p => p.1 ≠ k) l

/-- Generic association-list bind: `d[k] = v` on a Python dict. -/
def assocSet {κ α : Type} [DecidableEq κ] (l : List (κ × α)) (k : κ) (v : α) : List (κ × α) :=
  (k, v) :: assocErase l k

/-- `LocationNode` (src/core/world/location_graph.py). -/
structure LocationNode where
  id : String
  name : String
  locationType : String
  resourceRichness : List (String × Int)
  accessCost : ℚ
deriving DecidableEq

/-- `LocationEdge` (src/core/world/location_graph.py). -/
structure LocationEdge where
  fromId : String
  toId : String
  distance : ℚ
  difficulty : ℚ
  bidirectional : Bool
deriving DecidableEq

/-- `LocationGraph`: nodes dict, edge list and the `_adjacency` dict the
class maintains incrementally. -/
structure LocationGraph where
  nodes : List (String × LocationNode)
  edges : List LocationEdge
  adjacency : List (String × List String)
deriving DecidableEq

def emptyGraph : LocationGraph := ⟨[], [], []⟩

/-- Append `v` to the adjacency list of `k`, creating it when absent. -/
def adjAppend (adj : List (String × List String)) (k v : String) :
    List (String × List String) :=
  match List.lookup k adj with
  | none => assocSet adj k [v]
  | some l => assocSet adj k (l ++ [v])

/-- `LocationGraph.add_node`. -/
def addNode (g : LocationGraph) (node : LocationNode) : LocationGraph :=
  { g with
    nodes := assocSet g.nodes node.id node
    adjacency := match List.lookup node.id g.adjacency with
      | none => assocSet g.adjacency node.id []
      | some _ => g.adjacency }

/-- `LocationGraph.add_edge`: record the edge and extend `_adjacency` in the
forward direction, and in the reverse direction when bidirectional. -/
def addEdge (g : LocationGraph) (e : LocationEdge) : LocationGraph :=
  let adj1 := adjAppend g.adjacency e.fromId e.toId
  let adj2 := if e.bidirectional then adjAppend adj1 e.toId e.fromId else adj1
  { g with edges := g.edges ++ [e], adjacency := adj2 }

/-- `LocationGraph.get_neighbors`: `self._adjacency.get(location_id, [])`. -/
def getNeighbors (g : LocationGraph) (locationId : String) : List String :=
  (List.lookup locationId g.adjacency).getD []

/-- `LocationGraph.get_node`. -/
def getNode (g : LocationGraph) (locationId : String) : Option LocationNode :=
  List.lookup locationId g.nodes

/-- `LocationGraph.get_edge`: the first stored edge joining the endpoints,
allowing the reverse direction of a bidirectional edge. -/
def getEdge (g : LocationGraph) (a b : String) : Option LocationEdge :=
  List.find? (fun e =>
    (e.fromId == a && e.toId == b) ||
    (e.bidirectional && e.fromId == b && e.toId == a)) g.edges

/-- `LocationGraph.travel_cost`: `float('inf')` (embedded as `none`) when no
edge joins the endpoints, else distance times difficulty, times the
destination node's access cost when the node exists. -/
def travelCost (g : LocationGraph) (a b : String) : Option ℚ :=
  match getEdge g a b with
  | none => none
  | some e =>
    let base := e.distance * e.difficulty
    some (match getNode g b with
      | some dest => base * dest.accessCost
      | none => base)

/-- `ActionResult` (src/core/actions/action_interpreter.py). -/
inductive ActionResult where
  | SUCCESS
  | FAILURE
  | PARTIAL
  | INVALID
deriving DecidableEq

/-- `TradeItem` (src/core/actions/action_schema.py). -/
structure TradeItem where
  itemType : String
  quantity : Int
deriving DecidableEq

/-- `GroupActionType` (src/core/actions/action_schema.py). -/
inductive GroupActionType where
  | FORM_GROUP
  | JOIN_GROUP
  | LEAVE_GROUP
  | VOTE
  | PROPOSE_RULE
deriving DecidableEq

/-- The closed action tagged union (src/core/actions/action_schema.py), one
constructor per `ActionType`, carrying the agent id, the type-specific
fields and the timestamp. -/
inductive Action where
  | move (agentId destination : String) (timestamp : ℚ)
  | harvest (agentId resourceType : String) (amount : Int) (timestamp : ℚ)
  | craft (agentId recipeId : String) (quantity : Int) (timestamp : ℚ)
  | message (agentId : String) (recipientId : Option String)
      (channel content : String) (timestamp : ℚ)
  | tradeProposal (agentId targetAgentId : String)
      (offeredItems requestedItems : List TradeItem) (proposalId : String) (timestamp : ℚ)
  | acceptTrade (agentId proposalId : String) (accept : Bool) (timestamp : ℚ)
  | groupAct (agentId : String) (groupActionType : GroupActionType)
      (groupId : Option String) (timestamp : ℚ)
  | idle (agentId reason : String) (timestamp : ℚ)
deriving DecidableEq

/-- The `agent_id` field shared by every action variant. -/
def Action.agentId : Action → String
  | .move a _ _ => a
  | .harvest a _ _ _ => a
  | .craft a _ _ _ => a
  | .message a _ _ _ _ => a
  | .tradeProposal a _ _ _ _ _ => a
  | .acceptTrade a _ _ _ => a
  | .groupAct a _ _ _ => a
  | .idle a _ _ => a

/-- The valid message channels (src/core/actions/action_schema.py). -/
def validChannels : List String :=
  ["direct", "location", "global", "broadcast", "group", "trade", "governance"]

/-- Each variant's `validate()` (src/core/actions/action_schema.py): the
list of all violated structural preconditions.  An empty-or-`None` Python
string is falsy; an `Option String` is falsy when it is `none` or
`some ""`. -/
def validateAction : Action → List String
  | .move aid dest _ =>
      (if aid = "" then ["agent_id is required"] else []) ++
      (if dest = "" then ["destination is required for MOVE action"] else [])
  | .harvest aid rt amount _ =>
      (if aid = "" then ["agent_id is required"] else []) ++
      (if rt = "" then ["resource_type is required for HARVEST action"] else []) ++
      (if amount ≤ 0 then ["amount must be positive for HARVEST action"] else [])
  | .craft aid rid quantity _ =>
      (if aid = "" then ["agent_id is required"] else []) ++
      (if rid = "" then ["recipe_id is required for CRAFT action"] else []) ++
      (if quantity ≤ 0 then ["quantity must be positive for CRAFT action"] else [])
  | .message aid recipient channel content _ =>
      (if aid = "" then ["agent_id is required"] else []) ++
      (if content = "" then ["content is required for MESSAGE action"] else []) ++
      (if channel ∉ validChannels then ["invalid channel for MESSAGE action"] else []) ++
      (if channel = "direct" ∧ recipient.getD "" = ""
        then ["recipient_id is required for direct MESSAGE"] else [])
  | .tradeProposal aid target offered requested _ _ =>
      (if aid = "" then ["agent_id is required"] else []) ++
      (if target = "" then ["target_agent_id is required for TRADE_PROPOSAL"] else []) ++
      (if aid = target then ["cannot trade with self"] else []) ++
      (if offered = [] ∧ requested = []
        then ["trade must include offered or requested items"] else []) ++
      (offered.filterMap (fun i =>
        if i.quantity ≤ 0 then some ("offered item quantity must be positive: " ++ i.itemType)
        else none)) ++
      (requested.filterMap (fun i =>
        if i.quantity ≤ 0 then some ("requested item quantity must be positive: " ++ i.itemType)
        else none))
  | .acceptTrade aid pid _ _ =>
      (if aid = "" then ["agent_id is required"] else []) ++
      (if pid = "" then ["proposal_id is required for ACCEPT_TRADE"] else [])
  | .groupAct aid gat gid _ =>
      (if aid = "" then ["agent_id is required"] else []) ++
      (if gat ≠ GroupActionType.FORM_GROUP ∧ gid.getD "" = ""
        then ["group_id required for group operations (except FORM_GROUP)"] else [])
  | .idle aid _ _ =>
      (if aid = "" then ["agent_id is required"] else [])

/-- The structured `state_changes` dict of an `ActionOutcome`, one shape per
handler that fills it. -/
inductive StateChanges where
  | empty
  | moved (agentId oldLocation newLocation : String)
  | harvested (agentId resourceType : String) (amountHarvested : Int) (location : String)
  | crafted (agentId recipeId : String) (quantity : Int)
      (inputsConsumed outputsProduced : List (String × Int))
  | traded (proposalId proposerId targetId : String)
      (proposerGave targetGave : List (String × Int))
deriving DecidableEq

/-- `ActionOutcome` (src/core/actions/action_interpreter.py); side effects
are recorded by their `type` tag. -/
structure ActionOutcome where
  result : ActionResult
  message : String
  stateChanges : StateChanges
  sideEffects : List String
deriving DecidableEq

/-- `ActionOutcome.succeeded`: result is SUCCESS or PARTIAL. -/
def ActionOutcome.succeeded (o : ActionOutcome) : Bool :=
  o.result == ActionResult.SUCCESS || o.result == ActionResult.PARTIAL

/-- A failure outcome with no state changes. -/
def failOutcome (msg : String) : ActionOutcome :=
  ⟨ActionResult.FAILURE, msg, StateChanges.empty, []⟩

/-- A pending-trade ledger entry (the dict built by
`_handle_trade_proposal`). -/
structure PendingTrade where
  proposerId : String
  targetId : String
  offeredItems : List (String × Int)
  requestedItems : List (String × Int)
  timestamp : ℚ
deriving DecidableEq

/-- A crafting recipe (the dicts in `crafting_rules`). -/
structure Recipe where
  inputs : List (String × Int)
  outputs : List (String × Int)
  skillGain : List (String × ℚ)
deriving DecidableEq

/-- The mutable state an `ActionInterpreter` owns or reaches: the agent
manager, the location graph, the crafting rules and the `_pending_trades`
ledger. -/
structure InterpState where
  agents : AgentManager
  graph : LocationGraph
  crafting : List (String × Recipe)
  pendingTrades : List (String × PendingTrade)
deriving DecidableEq

/-- Apply a list of inventory deltas to one agent through
`update_agent_inventory`, ignoring the per-call success flag exactly as the
craft handler does. -/
def applyInventoryDeltas (m : AgentManager) (agentId : String) :
    List (String × Int) → Except String AgentManager
  | [] => Except.ok m
  | (item, d) :: rest => do
      let (_, m') ← updateAgentInventory m agentId item d
      applyInventoryDeltas m' agentId rest

/-- Apply a list of skill gains through `update_agent_skill`. -/
def applySkillGains (m : AgentManager) (agentId : String) :
    List (String × ℚ) → Except String AgentManager
  | [] => Except.ok m
  | (skill, g) :: rest => do
      let m' ← updateAgentSkill m agentId skill g
      applySkillGains m' agentId rest

/-- One round of the settlement loops in `_handle_accept_trade`: for each
`(item, quantity)` subtract from `srcId` and add to `dstId`, ignoring the
per-call success flags exactly as the source does. -/
def applyTransferList (m : AgentManager) (srcId dstId : String) :
    List (String × Int) → Except String AgentManager
  | [] => Except.ok m
  | (item, q) :: rest => do
      let (_, m1) ← updateAgentInventory m srcId item (-q)
      let (_, m2) ← updateAgentInventory m1 dstId item q
      applyTransferList m2 srcId dstId rest

/-- `_handle_move` (src/core/actions/action_interpreter.py lines 85-134).
The neighbor and travel-cost checks run only when the current location is a
nonempty string and differs from the destination, exactly as the Python
`if current_location and current_location != destination` guard. -/
def handleMove (st : InterpState) (aid dest : String) :
    Except String (ActionOutcome × InterpState) :=
  match getAgent st.agents aid with
  | none => Except.ok (failOutcome ("Agent not found: " ++ aid), st)
  | some agent =>
    let currentLocation := agent.location
    match getNode st.graph dest with
    | none => Except.ok (failOutcome ("Destination not found: " ++ dest), st)
    | some _ =>
      let proceed : Except String (ActionOutcome × InterpState) := do
        let oldLocation := agent.location
        let m' ← updateAgentLocation st.agents aid dest
        Except.ok
          (⟨ActionResult.SUCCESS, "Moved from " ++ oldLocation ++ " to " ++ dest,
            StateChanges.moved aid oldLocation dest, []⟩,
           { st with agents := m' })
      if currentLocation ≠ "" ∧ currentLocation ≠ dest then
        if dest ∉ getNeighbors st.graph currentLocation then
          Except.ok (failOutcome ("No path from " ++ currentLocation ++ " to " ++ dest), st)
        else if travelCost st.graph currentLocation dest = none then
          Except.ok (failOutcome ("Path blocked from " ++ currentLocation ++ " to " ++ dest), st)
        else proceed
      else proceed

/-- `_handle_harvest` (src/core/actions/action_interpreter.py lines
136-195). -/
def handleHarvest (st : InterpState) (aid resourceType : String) (amount : Int) :
    Except String (ActionOutcome × InterpState) :=
  match getAgent st.agents aid with
  | none => Except.ok (failOutcome ("Agent not found: " ++ aid), st)
  | some agent =>
    match getNode st.graph agent.location with
    | none => Except.ok (failOutcome "Agent not at valid location", st)
    | some node =>
      let resourceRichness := (List.lookup resourceType node.resourceRichness).getD 0
      if resourceRichness ≤ 0 then
        Except.ok (failOutcome ("Resource not available at " ++ node.name), st)
      else
        let cont : Int → Except String (ActionOutcome × InterpState) :=
          fun actualAmount => do
            let (success, m') ← updateAgentInventory st.agents aid resourceType actualAmount
            if !success then
              Except.ok (failOutcome "Failed to update inventory", st)
            else
              let resultType := if actualAmount = amount then ActionResult.SUCCESS
                                else ActionResult.PARTIAL
              Except.ok
                (⟨resultType, "Harvested " ++ resourceType,
                  StateChanges.harvested aid resourceType actualAmount agent.location, []⟩,
                 { st with agents := m' })
        if agent.inventorySpace < amount then
          let actualAmount := agent.inventorySpace
          if actualAmount ≤ 0 then
            Except.ok (failOutcome "Inventory full", st)
          else cont actualAmount
        else cont (min amount resourceRichness)

/-- `_handle_craft` (src/core/actions/action_interpreter.py lines
197-262). -/
def handleCraft (st : InterpState) (aid recipeId : String) (quantity : Int) :
    Except String (ActionOutcome × InterpState) :=
  match getAgent st.agents aid with
  | none => Except.ok (failOutcome ("Agent not found: " ++ aid), st)
  | some agent =>
    match List.lookup recipeId st.crafting with
    | none => Except.ok (failOutcome ("Unknown recipe: " ++ recipeId), st)
    | some recipe =>
      match List.find? (fun p => decide (invGet agent.inventory p.1 < p.2 * quantity))
          recipe.inputs with
      | some p => Except.ok (failOutcome ("Insufficient " ++ p.1), st)
      | none =>
        let totalOutput := (recipe.outputs.map (fun p => p.2 * quantity)).sum
        let totalInput := (recipe.inputs.map (fun p => p.2 * quantity)).sum
        let netChange := totalOutput - totalInput
        if netChange > 0 ∧ agent.inventorySpace < netChange then
          Except.ok (failOutcome "Insufficient inventory space for crafted items", st)
        else do
          let m1 ← applyInventoryDeltas st.agents aid
            (recipe.inputs.map (fun p => (p.1, -(p.2 * quantity))))
          let m2 ← applyInventoryDeltas m1 aid
            (recipe.outputs.map (fun p => (p.1, p.2 * quantity)))
          let m3 ← applySkillGains m2 aid
            (recipe.skillGain.map (fun p => (p.1, p.2 * (quantity : ℚ))))
          Except.ok
            (⟨ActionResult.SUCCESS, "Crafted " ++ recipeId,
              StateChanges.crafted aid recipeId quantity
                (recipe.inputs.map (fun p => (p.1, p.2 * quantity)))
                (recipe.outputs.map (fun p => (p.1, p.2 * quantity))), []⟩,
             { st with agents := m3 })

/-- `_handle_message` (src/core/actions/action_interpreter.py lines
264-294). -/
def handleMessage (st : InterpState) (aid : String) (recipientId : Option String)
    (channel : String) : Except String (ActionOutcome × InterpState) :=
  match getAgent st.agents aid with
  | none => Except.ok (failOutcome ("Agent not found: " ++ aid), st)
  | some _ =>
    if channel = "direct" ∧ recipientId.getD "" ≠ "" then
      match getAgent st.agents (recipientId.getD "") with
      | none => Except.ok (failOutcome ("Recipient not found: " ++ recipientId.getD ""), st)
      | some _ =>
        Except.ok (⟨ActionResult.SUCCESS, "Message queued", StateChanges.empty, ["message"]⟩, st)
    else
      Except.ok (⟨ActionResult.SUCCESS, "Message queued", StateChanges.empty, ["message"]⟩, st)

/-- `_handle_trade_proposal` (src/core/actions/action_interpreter.py lines
296-339): non-binding holdings check, then register the `PendingTrade`. -/
def handleTradeProposal (st : InterpState) (aid targetId : String)
    (offered requested : List TradeItem) (pid : String) (ts : ℚ) :
    Except String (ActionOutcome × InterpState) :=
  match getAgent st.agents aid with
  | none => Except.ok (failOutcome ("Agent not found: " ++ aid), st)
  | some agent =>
    match getAgent st.agents targetId with
    | none => Except.ok (failOutcome ("Target agent not found: " ++ targetId), st)
    | some _ =>
      match List.find? (fun i => decide (invGet agent.inventory i.itemType < i.quantity))
          offered with
      | some i => Except.ok (failOutcome ("Insufficient " ++ i.itemType ++ " to offer"), st)
      | none =>
        let entry : PendingTrade :=
          ⟨aid, targetId,
           offered.map (fun i => (i.itemType, i.quantity)),
           requested.map (fun i => (i.itemType, i.quantity)), ts⟩
        Except.ok
          (⟨ActionResult.SUCCESS, "Trade proposal created: " ++ pid,
            StateChanges.empty, ["trade_proposal"]⟩,
           { st with pendingTrades := assocSet st.pendingTrades pid entry })

/-- `_handle_accept_trade` (src/core/actions/action_interpreter.py lines
341-417): only the target may respond; reject removes the entry; accept
re-validates both sides' holdings, removing the entry and failing on any
shortfall, and otherwise performs the two settlement loops (whose per-item
success flags the source ignores) before removing the entry. -/
def handleAcceptTrade (st : InterpState) (aid pid : String) (accept : Bool) :
    Except String (ActionOutcome × InterpState) :=
  match List.lookup pid st.pendingTrades with
  | none => Except.ok (failOutcome ("Trade proposal not found: " ++ pid), st)
  | some pt =>
    if aid ≠ pt.targetId then
      Except.ok (failOutcome "Only the target can respond to this trade", st)
    else if !accept then
      Except.ok
        (⟨ActionResult.SUCCESS, "Trade rejected", StateChanges.empty, []⟩,
         { st with pendingTrades := assocErase st.pendingTrades pid })
    else
      match getAgent st.agents pt.proposerId, getAgent st.agents pt.targetId with
      | none, _ =>
        Except.ok (failOutcome "One or both trade parties no longer exist",
          { st with pendingTrades := assocErase st.pendingTrades pid })
      | _, none =>
        Except.ok (failOutcome "One or both trade parties no longer exist",
          { st with pendingTrades := assocErase st.pendingTrades pid })
      | some proposer, some target =>
        match List.find? (fun p => decide (invGet proposer.inventory p.1 < p.2))
            pt.offeredItems with
        | some p =>
          Except.ok (failOutcome ("Proposer no longer has sufficient " ++ p.1),
            { st with pendingTrades := assocErase st.pendingTrades pid })
        | none =>
          match List.find? (fun p => decide (invGet target.inventory p.1 < p.2))
              pt.requestedItems with
          | some p =>
            Except.ok (failOutcome ("Target no longer has sufficient " ++ p.1),
              { st with pendingTrades := assocErase st.pendingTrades pid })
          | none => do
            let m1 ← applyTransferList st.agents pt.proposerId pt.targetId pt.offeredItems
            let m2 ← applyTransferList m1 pt.targetId pt.proposerId pt.requestedItems
            Except.ok
              (⟨ActionResult.SUCCESS, "Trade completed",
                StateChanges.traded pid pt.proposerId pt.targetId
                  pt.offeredItems pt.requestedItems, []⟩,
               { st with
                  agents := m2
                  pendingTrades := assocErase st.pendingTrades pid })

/-- `_handle_group_action` (src/core/actions/action_interpreter.py lines
419-439). -/
def handleGroupAction (st : InterpState) (aid : String) :
    Except String (ActionOutcome × InterpState) :=
  match getAgent st.agents aid with
  | none => Except.ok (failOutcome ("Agent not found: " ++ aid), st)
  | some _ =>
    Except.ok (⟨ActionResult.SUCCESS, "Group action queued", StateChanges.empty,
      ["group_action"]⟩, st)

/-- `_handle_idle` (src/core/actions/action_interpreter.py lines 441-454). -/
def handleIdle (st : InterpState) (aid : String) :
    Except String (ActionOutcome × InterpState) :=
  match getAgent st.agents aid with
  | none => Except.ok (failOutcome ("Agent not found: " ++ aid), st)
  | some _ =>
    Except.ok (⟨ActionResult.SUCCESS, "Agent idle", StateChanges.empty, []⟩, st)

/-- Dispatch to the per-type handler (the `_handlers` table). -/
def dispatch (st : InterpState) : Action → Except String (ActionOutcome × InterpState)
  | .move aid dest _ => handleMove st aid dest
  | .harvest aid rt amount _ => handleHarvest st aid rt amount
  | .craft aid rid quantity _ => handleCraft st aid rid quantity
  | .message aid recipient channel _ _ => handleMessage st aid recipient channel
  | .tradeProposal aid target offered requested pid ts =>
      handleTradeProposal st aid target offered requested pid ts
  | .acceptTrade aid pid accept _ => handleAcceptTrade st aid pid accept
  | .groupAct aid _ _ _ => handleGroupAction st aid
  | .idle aid _ _ => handleIdle st aid

/-- `ActionInterpreter.execute` (src/core/actions/action_interpreter.py
lines 56-80): revalidate, dispatch, and convert any exception a handler
raises into a FAILURE outcome at this boundary.  No reachable handler path
raises after mutating (the only raise site, `get_agent_or_raise`, is always
guarded by an existence check on an agent no handler removes), so returning
the entry state on `Except.error` is faithful. -/
def execute (st : InterpState) (a : Action) : ActionOutcome × InterpState :=
  let errors := validateAction a
  if errors ≠ [] then
    (⟨ActionResult.INVALID, "Validation errors", StateChanges.empty, []⟩, st)
  else
    match dispatch st a with
    | Except.ok r => r
    | Except.error msg => (failOutcome ("Handler error: " ++ msg), st)

/-- `execute_batch` / any interpreter-sanctioned action sequence: fold
`execute` over a list of actions, keeping only the final state. -/
def executeAll (st : InterpState) : List Action → InterpState
  | [] => st
  | a :: rest => executeAll (execute st a).2 rest

/-- `AgentCooldown` (src/core/cognition/rate_limiter.py): per-agent throttle
state.  Wall-clock instants are embedded as rationals. -/
structure AgentCooldown where
  consecutiveErrors : Nat
  lastRequestTime : ℚ
  lastErrorTime : ℚ
  cooldownUntil : ℚ
  totalRequests : Nat
  successfulRequests : Nat
deriving DecidableEq

/-- The dataclass defaults: all counters zero. -/
def AgentCooldown.init : AgentCooldown := ⟨0, 0, 0, 0, 0, 0⟩

/-- `AgentCooldown.is_on_cooldown` at wall-clock instant `now`. -/
def AgentCooldown.isOnCooldown (c : AgentCooldown) (now : ℚ) : Bool :=
  now < c.cooldownUntil

/-- `RateLimiter` (src/core/cognition/rate_limiter.py).  `time.time()` is
passed explicitly as `now` to each operation that reads the clock.  The
`defaultdict` of cooldowns is embedded as an association list read with a
default (the lazily-inserted default entry is observationally equal). -/
structure RateLimiter where
  baseCooldown : ℚ
  maxCooldown : ℚ
  minRequestInterval : ℚ
  globalMinInterval : ℚ
  enableMandatoryRest : Bool
  mandatoryRestInterval : Nat
  agentCooldowns : List (String × AgentCooldown)
  lastGlobalRequest : ℚ
  restingAgents : List String
  currentTick : Int
  isNight : Bool
  nightStartTick : Int
  nightDurationTicks : Int
  errorCountThisTick : Nat
  errorThresholdForNight : Nat
deriving DecidableEq

/-- `RateLimiter.__init__` with the constructor's default arguments. -/
def RateLimiter.init : RateLimiter :=
  ⟨5, 120, 1/2, 1/10, true, 5, [], 0, [], 0, false, 0, 5, 0, 3⟩

/-- `BACKOFF_MULTIPLIER = 2.0`. -/
def BACKOFF_MULTIPLIER : ℚ := 2

/-- Read an agent's cooldown record, defaulting as the `defaultdict` does. -/
def RateLimiter.cooldownOf (rl : RateLimiter) (agentId : String) : AgentCooldown :=
  (List.lookup agentId rl.agentCooldowns).getD AgentCooldown.init

/-- Store an agent's cooldown record. -/
def RateLimiter.setCooldown (rl : RateLimiter) (agentId : String) (c : AgentCooldown) :
    RateLimiter :=
  { rl with agentCooldowns := assocSet rl.agentCooldowns agentId c }

/-- `RateLimiter.set_tick` (lines 64-71): on a tick change reset the
per-tick error counter, and auto-clear night mode once the tick reaches
`start + duration`. -/
def RateLimiter.setTick (rl : RateLimiter) (tick : Int) : RateLimiter :=
  if tick ≠ rl.currentTick then
    let rl := { rl with currentTick := tick, errorCountThisTick := 0 }
    if rl.isNight ∧ tick ≥ rl.nightStartTick + rl.nightDurationTicks then
      { rl with isNight := false, restingAgents := [] }
    else rl
  else rl

/-- `RateLimiter.is_night_mode`. -/
def RateLimiter.isNightMode (rl : RateLimiter) : Bool := rl.isNight

/-- `RateLimiter.trigger_night_mode` (lines 76-80). -/
def RateLimiter.triggerNightMode (rl : RateLimiter) (durationTicks : Int) : RateLimiter :=
  { rl with
    isNight := true
    nightStartTick := rl.currentTick
    nightDurationTicks := durationTicks
    restingAgents := [] }

/-- `RateLimiter.can_make_request` (lines 82-105), with the checks in the
source's order: night mode, per-agent cooldown, mandatory rest, per-agent
minimum interval, global minimum interval. -/
def RateLimiter.canMakeRequest (rl : RateLimiter) (agentId : String) (now : ℚ) :
    Bool × String :=
  let cooldown := rl.cooldownOf agentId
  if rl.isNight then
    (false, "Night mode active (rest period).")
  else if cooldown.isOnCooldown now then
    (false, "Rate limited. Cooldown remaining")
  else if agentId ∈ rl.restingAgents then
    (false, "Mandatory rest period (preventing API overload)")
  else if now - cooldown.lastRequestTime < rl.minRequestInterval then
    (false, "Too soon since last request.")
  else if now - rl.lastGlobalRequest < rl.globalMinInterval then
    (false, "Global rate limit.")
  else
    (true, "")

/-- `RateLimiter.record_request_start` (lines 107-112). -/
def RateLimiter.recordRequestStart (rl : RateLimiter) (agentId : String) (now : ℚ) :
    RateLimiter :=
  let c := rl.cooldownOf agentId
  { rl.setCooldown agentId
      { c with lastRequestTime := now, totalRequests := c.totalRequests + 1 } with
    lastGlobalRequest := now }

/-- `RateLimiter.record_request_success` (lines 114-121): zero the
consecutive-error counter, bump the success counter, and when mandatory rest
is enabled and the success total is a multiple of the rest interval, add the
agent to the resting set. -/
def RateLimiter.recordRequestSuccess (rl : RateLimiter) (agentId : String) : RateLimiter :=
  let c := rl.cooldownOf agentId
  let c' := { c with
    consecutiveErrors := 0
    successfulRequests := c.successfulRequests + 1 }
  let rl' := rl.setCooldown agentId c'
  if rl'.enableMandatoryRest ∧ c'.successfulRequests % rl'.mandatoryRestInterval = 0 then
    { rl' with restingAgents := agentId :: rl'.restingAgents }
  else rl'

/-- Whether the error text suggests external rate limiting: `"rate" in
message.lower() or "too many" in message.lower()`. -/
def mentionsRateLimit (message : String) : Bool :=
  (message.toLower.splitOn "rate").length > 1 ||
  (message.toLower.splitOn "too many").length > 1

/-- The cooldown duration `record_request_error` computes (lines 130-135):
exponential backoff from the post-increment consecutive-error count, capped
at `max_cooldown`, doubled on a rate-limit hint in the error text. -/
def RateLimiter.errorBackoffDuration (rl : RateLimiter) (agentId message : String) : ℚ :=
  let newErrors := (rl.cooldownOf agentId).consecutiveErrors + 1
  let backoffPower := min (newErrors - 1) 5
  let duration0 := rl.baseCooldown * BACKOFF_MULTIPLIER ^ backoffPower
  let duration1 := min duration0 rl.maxCooldown
  if mentionsRateLimit message then duration1 * 2 else duration1

/-- The state mutations of `record_request_error` before the night-mode
check (lines 123-137): bump the agent's consecutive errors and error time,
set its cooldown deadline, and bump the per-tick population error count. -/
def RateLimiter.recordRequestErrorPre (rl : RateLimiter) (agentId message : String)
    (now : ℚ) : RateLimiter :=
  let c := rl.cooldownOf agentId
  { rl.setCooldown agentId
      { c with
        consecutiveErrors := c.consecutiveErrors + 1
        lastErrorTime := now
        cooldownUntil := now + rl.errorBackoffDuration agentId message } with
    errorCountThisTick := rl.errorCountThisTick + 1 }

/-- `RateLimiter.record_request_error` (lines 123-142): the pre-state
mutations, then night mode tripped when this tick's error count reaches the
threshold.  Returns the cooldown duration with the new state. -/
def RateLimiter.recordRequestError (rl : RateLimiter) (agentId message : String)
    (now : ℚ) : ℚ × RateLimiter :=
  let rl2 := rl.recordRequestErrorPre agentId message now
  (rl.errorBackoffDuration agentId message,
   if rl2.errorCountThisTick ≥ rl2.errorThresholdForNight then rl2.triggerNightMode 5
   else rl2)

/-- `RateLimiter.clear_rest` (lines 144-145). -/
def RateLimiter.clearRest (rl : RateLimiter) (agentId : String) : RateLimiter :=
  { rl with restingAgents := rl.restingAgents.filter (fun a => a ≠ agentId) }

/-- The state-mutating rate-limiter operations a caller can perform. -/
inductive LimiterOp where
  | setTick (tick : Int)
  | reqStart (agentId : String) (now : ℚ)
  | reqSuccess (agentId : String)
  | reqError (agentId message : String) (now : ℚ)
deriving DecidableEq

/-- Apply one operation. -/
def limiterStep (rl : RateLimiter) : LimiterOp → RateLimiter
  | .setTick t => rl.setTick t
  | .reqStart a now => rl.recordRequestStart a now
  | .reqSuccess a => rl.recordRequestSuccess a
  | .reqError a msg now => (rl.recordRequestError a msg now).2

/-- Run a sequence of operations from a starting state. -/
def limiterRun (rl : RateLimiter) (ops : List LimiterOp) : RateLimiter :=
  ops.foldl limiterStep rl

/-- Insert `x` into `l` before the first element `y` with `le x y`
false... stable insertion: `x` goes before the first `y` it compares
less-or-equal to. -/
def insertBy {α : Type} (le : α → α → Bool) (x : α) : List α → List α
  | [] => [x]
  | y :: ys => if le x y then x :: y :: ys else y :: insertBy le x ys

/-- Stable insertion sort.  Python's `list.sort` is a stable sort by a
key; any stable sort by the same key yields the same list, so this
structurally recursive embedding is observationally identical. -/
def sortBy {α : Type} (le : α → α → Bool) : List α → List α
  | [] => []
  | x :: xs => insertBy le x (sortBy le xs)

/-- `HookPhase` (src/core/simulation/lifecycle_hooks.py). -/
inductive HookPhase where
  | WARMUP_START
  | WARMUP_END
  | BEFORE_TICK
  | AFTER_TICK
  | BEFORE_AGENT_ACTION
  | AFTER_AGENT_ACTION
  | WORLD_UPDATE
  | SIMULATION_START
  | SIMULATION_END
  | SNAPSHOT
deriving DecidableEq

/-- `HookResult` (src/core/simulation/lifecycle_hooks.py); the free-form
`data` dict is reduced to its `skipped` flag, the only entry the disabled
path writes. -/
structure HookResult where
  success : Bool
  hookName : String
  phase : HookPhase
  durationMs : ℚ
  error : Option String
  skipped : Bool
deriving DecidableEq

/-- A `LifecycleHook` at one invocation site: its name, priority, enabled
flag, and what its `execute` does at this invocation — either a returned
`HookResult` or a raised exception, embedded as `Except`.  The timing and
invocation-counter telemetry of `__call__` is not observed by any claim and
is abstracted (durations are reported as written by the hook or zero). -/
structure Hook where
  name : String
  priority : Int
  enabled : Bool
  exec : Except String HookResult

instance : DecidableEq (Except String HookResult) := fun x y =>
  match x, y with
  | Except.error a, Except.error b =>
    if h : a = b then isTrue (by rw [h]) else isFalse (fun hh => h (by cases hh; rfl))
  | Except.error _, Except.ok _ => isFalse (fun hh => by cases hh)
  | Except.ok _, Except.error _ => isFalse (fun hh => by cases hh)
  | Except.ok a, Except.ok b =>
    if h : a = b then isTrue (by rw [h]) else isFalse (fun hh => h (by cases hh; rfl))

instance : DecidableEq Hook := fun a b =>
  if h1 : a.name = b.name then
    if h2 : a.priority = b.priority then
      if h3 : a.enabled = b.enabled then
        if h4 : a.exec = b.exec then
          isTrue (by cases a; cases b; simp_all)
        else isFalse (fun hh => h4 (by rw [hh]))
      else isFalse (fun hh => h3 (by rw [hh]))
    else isFalse (fun hh => h2 (by rw [hh]))
  else isFalse (fun hh => h1 (by rw [hh]))

/-- `LifecycleHook.__call__` (lines 41-65): a disabled hook is a skipped
success; an exception from `execute` is caught and converted to a failed
`HookResult` carrying the error text, never propagated. -/
def callHook (h : Hook) : HookResult :=
  if !h.enabled then
    ⟨true, h.name, HookPhase.BEFORE_TICK, 0, none, true⟩
  else
    match h.exec with
    | Except.ok r => r
    | Except.error e => ⟨false, h.name, HookPhase.BEFORE_TICK, 0, some e, false⟩

/-- `LifecycleHookManager` (lines 253-296): phase-keyed registry, bounded
execution history (`_max_history = 1000` in `__init__`). -/
structure HookManager where
  hooks : List (HookPhase × List Hook)
  executionHistory : List HookResult
  maxHistory : Nat

/-- `LifecycleHookManager.__init__`. -/
def HookManager.init : HookManager := ⟨[], [], 1000⟩

/-- `LifecycleHookManager.register`: append, then stable-sort the phase's
list by descending priority (registration order is the tie-break). -/
def HookManager.register (m : HookManager) (phase : HookPhase) (h : Hook) : HookManager :=
  let l := ((List.lookup phase m.hooks).getD []) ++ [h]
  let sorted := sortBy (fun a b => decide (b.priority ≤ a.priority)) l
  { m with hooks := assocSet m.hooks phase sorted }

/-- `LifecycleHookManager.execute_phase` (lines 269-280): call each hook of
the phase, overwrite the result's phase, append every result to the
history, then truncate the history to its last `_max_history` entries when
it overflows (`history[-max:]`, which for `max = 0` is the whole list). -/
def HookManager.executePhase (m : HookManager) (phase : HookPhase) :
    List HookResult × HookManager :=
  let hs := (List.lookup phase m.hooks).getD []
  let results := hs.map (fun h => { callHook h with phase := phase })
  let hist1 := m.executionHistory ++ results
  let hist2 :=
    if hist1.length > m.maxHistory then
      if m.maxHistory = 0 then hist1 else hist1.drop (hist1.length - m.maxHistory)
    else hist1
  (results, { m with executionHistory := hist2 })

/-- One observable step of `TickEngine.execute_tick`, for the phase-order
trace: an engine-level hook callback invocation (keyed by the engine's hook
name), a due scheduled-event dispatch, or one agent's action execution. -/
inductive TraceEv where
  | hookInvoked (hookKey callback : String)
  | schedDispatched (eventName : String)
  | agentActionExecuted (agentId : String)
deriving DecidableEq

/-- `ScheduledEvent` (src/core/simulation/tick_engine.py lines 44-50). -/
structure ScheduledEvent where
  tick : Int
  name : String
  recurring : Bool
  interval : Int
deriving DecidableEq

/-- The `TickEngine` state that determines the order of observable steps in
one `execute_tick`: the tick counter, the engine-level hook lists (callbacks
by name, in registration order), the scheduled events and the agent ids.
The default lexicographic agent ordering is used (`agent_order_seed is
None`); callback effects, timing, stats and logging are opaque to the
phase-order claims. -/
structure TickEngine where
  currentTick : Int
  beforeTickHooks : List String
  afterTickHooks : List String
  beforeAgentActionHooks : List String
  afterAgentActionHooks : List String
  worldUpdateHooks : List String
  afterTickCompleteHooks : List String
  scheduledEvents : List ScheduledEvent
  agentIds : List String
deriving DecidableEq

/-- `_process_scheduled_events` (lines 138-156) applied to the event list:
due events are the ones whose tick equals the current tick; a recurring due
event with positive interval is re-scheduled, every other due event is
removed; order is preserved. -/
def stepScheduledEvents (events : List ScheduledEvent) (currentTick : Int) :
    List ScheduledEvent :=
  events.filterMap (fun ev =>
    if ev.tick = currentTick then
      if ev.recurring ∧ ev.interval > 0 then some { ev with tick := currentTick + ev.interval }
      else none
    else some ev)

/-- `_get_agent_order` (lines 158-168) on the default path: sort ids
lexicographically. -/
def agentOrder (e : TickEngine) : List String :=
  sortBy (fun a b => decide (a ≤ b)) e.agentIds

/-- `TickEngine.execute_tick` (lines 186-307), reduced to its trace of
observable steps in source order: `before_tick` hooks (line 197), then due
scheduled events (line 199), then per agent the `before_agent_action`
hooks, the action execution and the `after_agent_action` hooks (lines
206-259), then `world_update` hooks, `after_tick` hooks and
`after_tick_complete` hooks; the tick counter is incremented last. -/
def executeTickTrace (e : TickEngine) : List TraceEv × TickEngine :=
  let beforeT := e.beforeTickHooks.map (TraceEv.hookInvoked "before_tick")
  let due := e.scheduledEvents.filter (fun ev => ev.tick = e.currentTick)
  let sched := due.map (fun ev => TraceEv.schedDispatched ev.name)
  let perAgent := (agentOrder e).flatMap (fun aid =>
    e.beforeAgentActionHooks.map (TraceEv.hookInvoked "before_agent_action") ++
    [TraceEv.agentActionExecuted aid] ++
    e.afterAgentActionHooks.map (TraceEv.hookInvoked "after_agent_action"))
  let world := e.worldUpdateHooks.map (TraceEv.hookInvoked "world_update")
  let afterT := e.afterTickHooks.map (TraceEv.hookInvoked "after_tick")
  let afterC := e.afterTickCompleteHooks.map (TraceEv.hookInvoked "after_tick_complete")
  (beforeT ++ sched ++ perAgent ++ world ++ afterT ++ afterC,
   { e with
     currentTick := e.currentTick + 1
     scheduledEvents := stepScheduledEvents e.scheduledEvents e.currentTick })

/-- Whether a trace event is a `before_tick` hook invocation. -/
def isBeforeTickHook : TraceEv → Bool
  | .hookInvoked k _ => k == "before_tick"
  | _ => false

/-- Whether a trace event is a scheduled-event dispatch. -/
def isSchedDispatch : TraceEv → Bool
  | .schedDispatched _ => true
  | _ => false

/-- Whether a trace event is an agent action execution. -/
def isAgentAction : TraceEv → Bool
  | .agentActionExecuted _ => true
  | _ => false

/-! ## Helper lemmas -/

theorem mem_of_lookup_eq_some' {α β : Type} [BEq α] [LawfulBEq α]
    {l : List (α × β)} {k : α} {b : β}
    (h : List.lookup k l = some b) : (k, b) ∈ l := by
  rcases List.lookup_eq_some_iff.mp h with ⟨l₁, l₂, rfl, _⟩
  simp

/-- The quantity of `item` held by `agentId` in a state (0 when the agent
does not exist). -/
def heldBy (st : InterpState) (agentId item : String) : Int :=
  match getAgent st.agents agentId with
  | none => 0
  | some a => invGet a.inventory item

/-! ## Concrete scenario states -/

/-- Proposer for the conservation scenario: 5 wheat, capacity 100. -/
def consP : AgentState := ⟨"p", "P", "loc", [("wheat", 5)], 100, []⟩

/-- Target for the conservation scenario: a full inventory (100 stone of
capacity 100), so an incoming transfer does not fit. -/
def consT : AgentState := ⟨"t", "T", "loc", [("stone", 100)], 100, []⟩

/-- State with a pending trade `tr1`: `p` offers 5 wheat for 5 of `t`'s
stone. -/
def consState : InterpState :=
  ⟨[("p", consP), ("t", consT)], emptyGraph, [],
   [("tr1", ⟨"p", "t", [("wheat", 5)], [("stone", 5)], 0⟩)]⟩

/-- The target accepts trade `tr1`. -/
def consAccept : Action := Action.acceptTrade "t" "tr1" true 0

/-- A node whose wheat richness is 2. -/
def rich2Node : LocationNode := ⟨"loc", "Loc", "generic", [("wheat", 2)], 1⟩

/-- A graph with the single node `loc` (and hence no neighbors for it). -/
def rich2Graph : LocationGraph := addNode emptyGraph rich2Node

/-- An agent at `loc` with 3 units of remaining inventory space. -/
def space3Agent : AgentState := ⟨"a", "A", "loc", [("stone", 97)], 100, []⟩

/-- Harvest scenario: richness 2, space 3, request 5. -/
def harvestState : InterpState := ⟨[("a", space3Agent)], rich2Graph, [], []⟩

/-- A graph with two nodes `loc` and `far` and no edges. -/
def twoNodeGraph : LocationGraph :=
  addNode rich2Graph ⟨"far", "Far", "generic", [], 1⟩

/-- Move scenario: the agent at `loc`, destination `far` exists but is not
a neighbor. -/
def twoNodeState : InterpState := ⟨[("a", space3Agent)], twoNodeGraph, [], []⟩

/-- State with a pending trade `tr1` requesting 3 wood, which the target
does not hold: a settlement-time shortfall. -/
def consStateShort : InterpState :=
  ⟨[("p", consP), ("t", consT)], emptyGraph, [],
   [("tr1", ⟨"p", "t", [("wheat", 5)], [("wood", 3)], 0⟩)]⟩

/-! ## C1 -/

/-- C1: the conservation claim fails on the code.  In `consState` the
settlement of `tr1` returns SUCCESS, yet the total wheat held by proposer
and target together drops from 5 to 0: the add of the offered wheat to the
full-inventory target returns `False` from `update_agent_inventory`, which
`_handle_accept_trade` ignores, so the wheat the proposer paid is
destroyed. -/
theorem acceptTrade_success_breaks_conservation :
    (execute consState consAccept).1.result = ActionResult.SUCCESS ∧
    heldBy consState "p" "wheat" + heldBy consState "t" "wheat" = 5 ∧
    heldBy (execute consState consAccept).2 "p" "wheat" +
      heldBy (execute consState consAccept).2 "t" "wheat" = 0 := by
  decide

/-! ## C2 -/

/-- C2 counterexample: with richness 2, remaining space 3 and a request of
5, the code harvests 3 — the remaining space, not the requested amount
capped by both space and richness (which would be 2) — and reports
PARTIAL.  The claim's "capped by both remaining inventory space and the
resource richness" is false on this input. -/
theorem harvest_not_capped_by_richness :
    space3Agent.inventorySpace = 3 ∧
    (List.lookup "wheat" rich2Node.resourceRichness).getD 0 = 2 ∧
    (execute harvestState (Action.harvest "a" "wheat" 5 0)).1.result = ActionResult.PARTIAL ∧
    (execute harvestState (Action.harvest "a" "wheat" 5 0)).1.stateChanges =
      StateChanges.harvested "a" "wheat" 3 "loc" ∧
    ¬ ((3 : Int) = min 5 (min 3 2)) := by
  decide

/-! ## C3 -/

/-- C3 counterexample: an agent moving to its own current location
succeeds although the destination is not in the neighbor set of the
current location (the Python guard `current_location != destination`
skips the neighbor check), refuting "FAILURE whenever destination ∉
neighbors(current_location)". -/
theorem move_to_self_succeeds_without_neighbor :
    ((getAgent harvestState.agents "a").map AgentState.location).getD "" = "loc" ∧
    "loc" ∉ getNeighbors harvestState.graph "loc" ∧
    (execute harvestState (Action.move "a" "loc" 0)).1.result = ActionResult.SUCCESS := by
  decide

theorem exceptBind_ok {α β : Type} (a : α) (f : α → Except String β) :
    (Except.ok a >>= f : Except String β) = f a := rfl

theorem exceptBind_error {α β : Type} (e : String) (f : α → Except String β) :
    (Except.error e >>= f : Except String β) = Except.error e := rfl

theorem exceptPure {α : Type} (a : α) :
    (pure a : Except String α) = Except.ok a := rfl

theorem invGet_nonneg {inv : Inventory} (h : invNonneg inv) (item : String) :
    0 ≤ invGet inv item := by
  unfold invGet
  cases hl : List.lookup item inv with
  | none => simp
  | some v => simpa using h _ (mem_of_lookup_eq_some' hl)

theorem getAgent_setAgent {m : AgentManager} {agentId : String} {b : AgentState}
    (a : AgentState) (h : getAgent m agentId = some b) :
    getAgent (setAgent m agentId a) agentId = some a := by
  induction m with
  | nil => simp [getAgent] at h
  | cons p rest ih =>
    obtain ⟨k, v⟩ := p
    by_cases hk : k = agentId
    · subst hk
      simp [getAgent, setAgent]
    · have hk' : (agentId == k) = false := by simp [Ne.symm hk]
      simp only [getAgent, setAgent, List.map_cons, List.lookup_cons, hk'] at h ⊢
      simp only [if_neg hk]
      simpa [getAgent, setAgent, List.lookup_cons, hk'] using ih h

/-- C2 amended: with the agent and location valid, richness positive, and a
validated positive request: zero (or negative) remaining space gives
FAILURE; positive space smaller than the request harvests exactly the
remaining space (richness is not consulted) as PARTIAL; space at least the
request harvests `min(amount, richness)`, SUCCESS exactly when richness
covers the request and PARTIAL otherwise, with the actual amount in
state_changes. -/
theorem harvest_amount_semantics
    (st : InterpState) (aid rt : String) (amount : Int) (ts : ℚ)
    (agent : AgentState) (node : LocationNode)
    (hag : getAgent st.agents aid = some agent)
    (hnode : getNode st.graph agent.location = some node)
    (hrich : 0 < (List.lookup rt node.resourceRichness).getD 0)
    (hamt : 1 ≤ amount) (haid : aid ≠ "") (hrt : rt ≠ "")
    (hnn : invNonneg agent.inventory) :
    (agent.inventorySpace ≤ 0 →
      (execute st (Action.harvest aid rt amount ts)).1.result = ActionResult.FAILURE) ∧
    (0 < agent.inventorySpace → agent.inventorySpace < amount →
      (execute st (Action.harvest aid rt amount ts)).1.result = ActionResult.PARTIAL ∧
      (execute st (Action.harvest aid rt amount ts)).1.stateChanges =
        StateChanges.harvested aid rt agent.inventorySpace agent.location) ∧
    (amount ≤ agent.inventorySpace →
      (execute st (Action.harvest aid rt amount ts)).1.result =
        (if amount ≤ (List.lookup rt node.resourceRichness).getD 0
          then ActionResult.SUCCESS else ActionResult.PARTIAL) ∧
      (execute st (Action.harvest aid rt amount ts)).1.stateChanges =
        StateChanges.harvested aid rt
          (min amount ((List.lookup rt node.resourceRichness).getD 0)) agent.location) := by
  have hval : validateAction (Action.harvest aid rt amount ts) = [] := by
    have : ¬ (amount ≤ 0) := by omega
    simp [validateAction, haid, hrt, this]
  have hcur : 0 ≤ invGet agent.inventory rt := invGet_nonneg hnn rt
  have hr0 : ¬ ((List.lookup rt node.resourceRichness).getD 0 ≤ 0) := by omega
  refine ⟨?_, ?_, ?_⟩
  · intro hsp
    have h1 : agent.inventorySpace < amount := by omega
    simp [execute, hval, dispatch, handleHarvest, hag, hnode, hr0, h1, hsp, failOutcome]
  · intro h0 hlt
    have hns : ¬ (agent.inventorySpace ≤ 0) := by omega
    have hnc : ¬ (invGet agent.inventory rt + agent.inventorySpace < 0) := by omega
    have hg : ¬ (agent.inventorySpace > 0 ∧ agent.inventorySpace < agent.inventorySpace) := by
      omega
    have hne : ¬ (agent.inventorySpace = amount) := by omega
    simp [execute, hval, dispatch, handleHarvest, hag, hnode, hr0, hlt, hns,
      updateAgentInventory, getAgentOrRaise, exceptBind_ok, hnc, hg, hne]
  · intro hsp
    have hnlt : ¬ (agent.inventorySpace < amount) := by omega
    by_cases hcap : amount ≤ (List.lookup rt node.resourceRichness).getD 0
    · have hmin : min amount ((List.lookup rt node.resourceRichness).getD 0) = amount :=
        min_eq_left hcap
      have hnc : ¬ (invGet agent.inventory rt + amount < 0) := by omega
      have hg : ¬ (amount > 0 ∧ agent.inventorySpace < amount) := by omega
      simp [execute, hval, dispatch, handleHarvest, hag, hnode, hr0, hnlt, hmin,
        updateAgentInventory, getAgentOrRaise, exceptBind_ok, hnc, hg, hcap]
    · have hrlt : (List.lookup rt node.resourceRichness).getD 0 < amount := by omega
      have hmin : min amount ((List.lookup rt node.resourceRichness).getD 0) =
          (List.lookup rt node.resourceRichness).getD 0 :=
        min_eq_right (by omega)
      have hnc : ¬ (invGet agent.inventory rt +
          (List.lookup rt node.resourceRichness).getD 0 < 0) := by omega
      have hg : ¬ ((List.lookup rt node.resourceRichness).getD 0 > 0 ∧
          agent.inventorySpace < (List.lookup rt node.resourceRichness).getD 0) := by omega
      have hne : ¬ ((List.lookup rt node.resourceRichness).getD 0 = amount) := by omega
      simp [execute, hval, dispatch, handleHarvest, hag, hnode, hr0, hnlt, hmin,
        updateAgentInventory, getAgentOrRaise, exceptBind_ok, hnc, hg, hne, hcap]

/-- C2 witness for the amended theorem: richness 2, space 3, request 5,
exercising the space-capped PARTIAL branch. -/
theorem harvest_amount_semantics_witness :
    (execute harvestState (Action.harvest "a" "wheat" 5 0)).1.result =
      ActionResult.PARTIAL ∧
    (execute harvestState (Action.harvest "a" "wheat" 5 0)).1.stateChanges =
      StateChanges.harvested "a" "wheat" space3Agent.inventorySpace
        space3Agent.location :=
  (harvest_amount_semantics harvestState "a" "wheat" 5 0 space3Agent rich2Node
    (by decide) (by decide) (by decide) (by decide) (by decide) (by decide)
    (by decide)).2.1 (by decide) (by decide)

/-- C3 amended: for a validated move by an existing agent, (a) with a
nonempty current location and a distinct destination outside its neighbor
set the outcome is FAILURE and the state unchanged; (b) the move succeeds
exactly when the destination node exists and the current location is empty,
equals the destination, or has it as a neighbor with finite travel cost;
(c) on success state_changes records the old and new location and the
agent's location is updated. -/
theorem move_result_semantics
    (st : InterpState) (aid dest : String) (ts : ℚ) (agent : AgentState)
    (hag : getAgent st.agents aid = some agent)
    (haid : aid ≠ "") (hdest : dest ≠ "") :
    ((agent.location ≠ "" ∧ dest ≠ agent.location ∧
        dest ∉ getNeighbors st.graph agent.location) →
      (execute st (Action.move aid dest ts)).1.result = ActionResult.FAILURE ∧
      (execute st (Action.move aid dest ts)).2 = st) ∧
    ((execute st (Action.move aid dest ts)).1.result = ActionResult.SUCCESS ↔
      (getNode st.graph dest).isSome ∧
        (agent.location = "" ∨ agent.location = dest ∨
          (dest ∈ getNeighbors st.graph agent.location ∧
            travelCost st.graph agent.location dest ≠ none))) ∧
    ((execute st (Action.move aid dest ts)).1.result = ActionResult.SUCCESS →
      (execute st (Action.move aid dest ts)).1.stateChanges =
        StateChanges.moved aid agent.location dest ∧
      getAgent (execute st (Action.move aid dest ts)).2.agents aid =
        some { agent with location := dest }) := by
  have hval : validateAction (Action.move aid dest ts) = [] := by
    simp [validateAction, haid, hdest]
  cases hn : getNode st.graph dest with
  | none =>
    refine ⟨?_, ?_, ?_⟩
    · intro hc
      simp [execute, hval, dispatch, handleMove, hag, hn, failOutcome]
    · simp [execute, hval, dispatch, handleMove, hag, hn, failOutcome]
    · intro hres
      simp [execute, hval, dispatch, handleMove, hag, hn, failOutcome] at hres
  | some nd =>
    by_cases hloc : agent.location = ""
    · refine ⟨?_, ?_, ?_⟩
      · intro hc
        exact absurd hloc hc.1
      · simp [execute, hval, dispatch, handleMove, hag, hn, hloc,
          updateAgentLocation, getAgentOrRaise, exceptBind_ok]
      · intro _
        refine ⟨?_, ?_⟩
        · simp [execute, hval, dispatch, handleMove, hag, hn, hloc,
            updateAgentLocation, getAgentOrRaise, exceptBind_ok]
        · have := getAgent_setAgent
            ({ agent with location := dest }) hag
          simpa [execute, hval, dispatch, handleMove, hag, hn, hloc,
            updateAgentLocation, getAgentOrRaise, exceptBind_ok] using this
    · by_cases hsame : agent.location = dest
      · refine ⟨?_, ?_, ?_⟩
        · intro hc
          exact absurd hsame.symm hc.2.1
        · simp [execute, hval, dispatch, handleMove, hag, hn, hsame,
            updateAgentLocation, getAgentOrRaise, exceptBind_ok]
        · intro _
          refine ⟨?_, ?_⟩
          · simp [execute, hval, dispatch, handleMove, hag, hn, hsame,
              updateAgentLocation, getAgentOrRaise, exceptBind_ok]
          · have := getAgent_setAgent
              ({ agent with location := dest }) hag
            simpa [execute, hval, dispatch, handleMove, hag, hn, hsame,
              updateAgentLocation, getAgentOrRaise, exceptBind_ok] using this
      · by_cases hnb : dest ∈ getNeighbors st.graph agent.location
        · cases htc : travelCost st.graph agent.location dest with
          | none =>
            refine ⟨?_, ?_, ?_⟩
            · intro hc
              exact absurd hnb hc.2.2
            · simp [execute, hval, dispatch, handleMove, hag, hn, hloc, hsame, hnb, htc,
                failOutcome, Ne.symm hsame]
            · intro hres
              simp [execute, hval, dispatch, handleMove, hag, hn, hloc, hsame, hnb, htc,
                failOutcome, Ne.symm hsame] at hres
          | some c =>
            refine ⟨?_, ?_, ?_⟩
            · intro hc
              exact absurd hnb hc.2.2
            · simp [execute, hval, dispatch, handleMove, hag, hn, hloc, hsame, hnb, htc,
                updateAgentLocation, getAgentOrRaise, exceptBind_ok, Ne.symm hsame]
            · intro _
              refine ⟨?_, ?_⟩
              · simp [execute, hval, dispatch, handleMove, hag, hn, hloc, hsame, hnb, htc,
                  updateAgentLocation, getAgentOrRaise, exceptBind_ok, Ne.symm hsame]
              · have := getAgent_setAgent
                  ({ agent with location := dest }) hag
                simpa [execute, hval, dispatch, handleMove, hag, hn, hloc, hsame, hnb, htc,
                  updateAgentLocation, getAgentOrRaise, exceptBind_ok, Ne.symm hsame]
                  using this
        · refine ⟨?_, ?_, ?_⟩
          · intro hc
            simp [execute, hval, dispatch, handleMove, hag, hn, hloc, hsame, hnb,
              failOutcome, Ne.symm hsame]
          · simp [execute, hval, dispatch, handleMove, hag, hn, hloc, hsame, hnb,
              failOutcome, Ne.symm hsame]
          · intro hres
            simp [execute, hval, dispatch, handleMove, hag, hn, hloc, hsame, hnb,
              failOutcome, Ne.symm hsame] at hres

/-- C3 witness for the amended theorem: the unreachable-destination branch
on a two-node graph with no edges. -/
theorem move_result_semantics_witness :
    (execute twoNodeState (Action.move "a" "far" 0)).1.result = ActionResult.FAILURE ∧
    (execute twoNodeState (Action.move "a" "far" 0)).2 = twoNodeState :=
  (move_result_semantics twoNodeState "a" "far" 0 space3Agent
    (by decide) (by decide) (by decide)).1 (by decide)

/-! ## C10 -/

/-- C10: for an AcceptTrade (accept or reject) on a proposal present in the
ledger, an acting agent that is not the proposal's recorded target gets
FAILURE and the whole interpreter state — ledger and all inventories — is
unchanged. -/
theorem acceptTrade_nontarget_fails_unchanged
    (st : InterpState) (aid pid : String) (accept : Bool) (ts : ℚ) (pt : PendingTrade)
    (hpt : List.lookup pid st.pendingTrades = some pt)
    (hne : aid ≠ pt.targetId)
    (haid : aid ≠ "") (hpid : pid ≠ "") :
    (execute st (Action.acceptTrade aid pid accept ts)).1.result = ActionResult.FAILURE ∧
    (execute st (Action.acceptTrade aid pid accept ts)).2 = st := by
  have hval : validateAction (Action.acceptTrade aid pid accept ts) = [] := by
    simp [validateAction, haid, hpid]
  simp [execute, hval, dispatch, handleAcceptTrade, hpt, hne, failOutcome]

/-- C10 witness: a non-target (here the proposer) tries to accept `tr1`. -/
theorem acceptTrade_nontarget_fails_unchanged_witness :
    (execute consState (Action.acceptTrade "p" "tr1" true 0)).1.result =
      ActionResult.FAILURE ∧
    (execute consState (Action.acceptTrade "p" "tr1" true 0)).2 = consState :=
  acceptTrade_nontarget_fails_unchanged consState "p" "tr1" true 0
    ⟨"p", "t", [("wheat", 5)], [("stone", 5)], 0⟩ (by decide) (by decide)
    (by decide) (by decide)

/-! ## C4 -/

/-- C4: an accepted trade whose settlement-time revalidation finds a
shortfall on either side (proposer lacks an offered item, or target lacks a
requested item) removes the pending trade, returns FAILURE, and leaves
every inventory unchanged. -/
theorem acceptTrade_shortfall_terminates_trade
    (st : InterpState) (aid pid : String) (ts : ℚ) (pt : PendingTrade)
    (proposer target : AgentState)
    (hpt : List.lookup pid st.pendingTrades = some pt)
    (htgt : aid = pt.targetId)
    (haid : aid ≠ "") (hpid : pid ≠ "")
    (hP : getAgent st.agents pt.proposerId = some proposer)
    (hT : getAgent st.agents pt.targetId = some target)
    (hshort : (∃ p ∈ pt.offeredItems, invGet proposer.inventory p.1 < p.2) ∨
              (∃ p ∈ pt.requestedItems, invGet target.inventory p.1 < p.2)) :
    (execute st (Action.acceptTrade aid pid true ts)).1.result = ActionResult.FAILURE ∧
    (execute st (Action.acceptTrade aid pid true ts)).2.pendingTrades =
      assocErase st.pendingTrades pid ∧
    (execute st (Action.acceptTrade aid pid true ts)).2.agents = st.agents := by
  subst htgt
  have hval : validateAction (Action.acceptTrade pt.targetId pid true ts) = [] := by
    simp [validateAction, haid, hpid]
  rcases hfo : List.find? (fun p => decide (invGet proposer.inventory p.1 < p.2))
      pt.offeredItems with _ | p
  · rcases hfr : List.find? (fun p => decide (invGet target.inventory p.1 < p.2))
        pt.requestedItems with _ | q
    · exfalso
      have h1 := List.find?_eq_none.mp hfo
      have h2 := List.find?_eq_none.mp hfr
      rcases hshort with ⟨q, hq, hlt⟩ | ⟨q, hq, hlt⟩
      · exact absurd hlt (by simpa using h1 q hq)
      · exact absurd hlt (by simpa using h2 q hq)
    · simp [execute, hval, dispatch, handleAcceptTrade, hpt, hP, hT, hfo, hfr, failOutcome]
  · simp [execute, hval, dispatch, handleAcceptTrade, hpt, hP, hT, hfo, failOutcome]

/-- C4 witness: scenario A of the spec — the target's stone is gone by
settlement time (here the target never had the requested wood), so the
accept fails, removes the trade and changes no inventory. -/
theorem acceptTrade_shortfall_terminates_trade_witness :
    (execute consStateShort (Action.acceptTrade "t" "tr1" true 0)).1.result =
      ActionResult.FAILURE ∧
    (execute consStateShort (Action.acceptTrade "t" "tr1" true 0)).2.pendingTrades =
      assocErase consStateShort.pendingTrades "tr1" ∧
    (execute consStateShort (Action.acceptTrade "t" "tr1" true 0)).2.agents =
      consStateShort.agents :=
  acceptTrade_shortfall_terminates_trade consStateShort "t" "tr1" 0
    ⟨"p", "t", [("wheat", 5)], [("wood", 3)], 0⟩ consP consT
    (by decide) (by decide) (by decide) (by decide) (by decide) (by decide)
    (Or.inr ⟨("wood", 3), by decide, by decide⟩)

/-! ## C6: inventory invariants -/

theorem invKeys_cons (k : String) (v : Int) (rest : Inventory) :
    invKeys ((k, v) :: rest) = k :: invKeys rest := rfl

theorem invWF_invErase {inv : Inventory} (h : invWF inv) (item : String) :
    invWF (invErase inv item) := by
  unfold invWF invKeys at *
  exact h.sublist ((List.filter_sublist inv).map _)

theorem not_mem_keys_invErase (inv : Inventory) (item : String) :
    item ∉ invKeys (invErase inv item) := by
  intro h
  rcases List.mem_map.mp h with ⟨p, hp, hke⟩
  rcases List.mem_filter.mp hp with ⟨_, hne⟩
  simp at hne
  exact hne hke

theorem invWF_invSet {inv : Inventory} (h : invWF inv) (item : String) (v : Int) :
    invWF (invSet inv item v) := by
  unfold invSet
  rw [invWF, invKeys_cons, List.nodup_cons]
  exact ⟨not_mem_keys_invErase inv item, invWF_invErase h item⟩

theorem invNonneg_invErase {inv : Inventory} (h : invNonneg inv) (item : String) :
    invNonneg (invErase inv item) := by
  intro p hp
  exact h p (List.mem_of_mem_filter hp)

theorem invNonneg_invSet {inv : Inventory} (h : invNonneg inv) {item : String} {v : Int}
    (hv : 0 ≤ v) : invNonneg (invSet inv item v) := by
  intro p hp
  rcases List.mem_cons.mp hp with rfl | hp'
  · exact hv
  · exact h p (List.mem_of_mem_filter hp')

theorem invGet_of_not_mem {inv : Inventory} {item : String} (h : item ∉ invKeys inv) :
    invGet inv item = 0 := by
  unfold invGet
  rw [List.lookup_eq_none_iff.mpr]
  · rfl
  · intro p hp
    simp only [bne_iff_ne, ne_eq]
    intro hip
    exact h (List.mem_map.mpr ⟨p, hp, hip.symm⟩)

theorem invErase_of_not_mem {inv : Inventory} {item : String} (h : item ∉ invKeys inv) :
    invErase inv item = inv := by
  unfold invErase
  rw [List.filter_eq_self]
  intro p hp
  simp only [ne_eq, decide_not, Bool.not_eq_eq_eq_not, Bool.not_true, decide_eq_false_iff_not]
  intro hip
  exact h (List.mem_map.mpr ⟨p, hp, hip⟩)

theorem invTotal_invErase {inv : Inventory} (h : invWF inv) (item : String) :
    invTotal (invErase inv item) = invTotal inv - invGet inv item := by
  induction inv with
  | nil => simp [invErase, invTotal, invGet]
  | cons p rest ih =>
    obtain ⟨k, v⟩ := p
    rw [invWF, invKeys_cons, List.nodup_cons] at h
    obtain ⟨hk, hrest⟩ := h
    by_cases hki : k = item
    · subst hki
      have h1 : invErase ((k, v) :: rest) k = invErase rest k := by
        simp [invErase]
      rw [h1, invErase_of_not_mem hk]
      have h2 : invGet ((k, v) :: rest) k = v := by
        simp [invGet]
      rw [h2]
      simp [invTotal]
    · have h1 : invErase ((k, v) :: rest) item = (k, v) :: invErase rest item := by
        simp [invErase, hki]
      have hbe : (item == k) = false := by
        simpa using Ne.symm hki
      have h2 : invGet ((k, v) :: rest) item = invGet rest item := by
        simp [invGet, List.lookup_cons, hbe]
      rw [h1, h2]
      have h3 : invTotal ((k, v) :: invErase rest item) = v + invTotal (invErase rest item) := by
        simp [invTotal]
      have h4 : invTotal ((k, v) :: rest) = v + invTotal rest := by
        simp [invTotal]
      rw [h3, h4, ih hrest]
      ring

theorem invTotal_invSet {inv : Inventory} (h : invWF inv) (item : String) (v : Int) :
    invTotal (invSet inv item v) = invTotal inv - invGet inv item + v := by
  unfold invSet
  have h1 : invTotal ((item, v) :: invErase inv item) = v + invTotal (invErase inv item) := by
    simp [invTotal]
  rw [h1, invTotal_invErase h item]
  ring

/-- The per-agent invariant: a well-formed dict embedding, no negative
quantity, and the total within capacity. -/
def AgentInv (a : AgentState) : Prop :=
  invWF a.inventory ∧ invNonneg a.inventory ∧ a.inventoryCount ≤ a.capacity

instance (a : AgentState) : Decidable (AgentInv a) := by
  unfold AgentInv
  infer_instance

/-- The invariant over every agent the manager holds. -/
def ManagerInv (m : AgentManager) : Prop := ∀ p ∈ m, AgentInv p.2

instance (m : AgentManager) : Decidable (ManagerInv m) := by
  unfold ManagerInv
  infer_instance

theorem ManagerInv_setAgent {m : AgentManager} {agentId : String} {a : AgentState}
    (h : ManagerInv m) (ha : AgentInv a) : ManagerInv (setAgent m agentId a) := by
  intro p hp
  rcases List.mem_map.mp hp with ⟨q, hq, rfl⟩
  by_cases hq1 : q.1 = agentId
  · simp only [hq1, if_pos rfl]
    exact ha
  · simp only [if_neg hq1]
    exact h q hq

theorem AgentInv_of_getAgent {m : AgentManager} {agentId : String} {a : AgentState}
    (h : ManagerInv m) (hl : getAgent m agentId = some a) : AgentInv a :=
  h _ (mem_of_lookup_eq_some' hl)

theorem updateAgentInventory_ManagerInv {m m' : AgentManager} {agentId item : String}
    {delta : Int} {b : Bool} (h : ManagerInv m)
    (hr : updateAgentInventory m agentId item delta = Except.ok (b, m')) :
    ManagerInv m' := by
  unfold updateAgentInventory getAgentOrRaise at hr
  cases hl : getAgent m agentId with
  | none =>
    rw [hl] at hr
    rw [exceptBind_error] at hr
    simp at hr
  | some a =>
    rw [hl] at hr
    have hai := AgentInv_of_getAgent h hl
    obtain ⟨hwf, hnn, hcap⟩ := hai
    rw [exceptBind_ok] at hr
    by_cases h1 : invGet a.inventory item + delta < 0
    · rw [if_pos h1] at hr
      simp only [exceptPure, Except.ok.injEq, Prod.mk.injEq] at hr
      rw [← hr.2]
      exact h
    · rw [if_neg h1] at hr
      by_cases h2 : delta > 0 ∧ a.inventorySpace < delta
      · rw [if_pos h2] at hr
        simp only [exceptPure, Except.ok.injEq, Prod.mk.injEq] at hr
        rw [← hr.2]
        exact h
      · rw [if_neg h2] at hr
        simp only [exceptPure, Except.ok.injEq, Prod.mk.injEq] at hr
        rw [← hr.2]
        have hsp : delta > 0 → a.capacity - invTotal a.inventory ≥ delta := by
          intro hd
          by_contra hcon
          exact h2 ⟨hd, by unfold AgentState.inventorySpace AgentState.inventoryCount; omega⟩
        have hcap' : invTotal a.inventory ≤ a.capacity := hcap
        by_cases h3 : invGet a.inventory item + delta = 0
        · rw [if_pos h3]
          refine ManagerInv_setAgent h
            ⟨invWF_invErase hwf item, invNonneg_invErase hnn item, ?_⟩
          show invTotal (invErase a.inventory item) ≤ a.capacity
          rw [invTotal_invErase hwf item]
          omega
        · rw [if_neg h3]
          have hv : 0 ≤ invGet a.inventory item + delta := by omega
          refine ManagerInv_setAgent h
            ⟨invWF_invSet hwf item _, invNonneg_invSet hnn hv, ?_⟩
          show invTotal (invSet a.inventory item (invGet a.inventory item + delta)) ≤ a.capacity
          rw [invTotal_invSet hwf item]
          omega

theorem AgentInv_set_location {a : AgentState} (h : AgentInv a) (loc : String) :
    AgentInv { a with location := loc } := h

theorem AgentInv_set_skills {a : AgentState} (h : AgentInv a) (sk : List (String × ℚ)) :
    AgentInv { a with skills := sk } := h

theorem updateAgentLocation_ManagerInv {m m' : AgentManager} {agentId loc : String}
    (h : ManagerInv m) (hr : updateAgentLocation m agentId loc = Except.ok m') :
    ManagerInv m' := by
  unfold updateAgentLocation getAgentOrRaise at hr
  cases hl : getAgent m agentId with
  | none =>
    rw [hl, exceptBind_error] at hr
    simp at hr
  | some a =>
    rw [hl, exceptBind_ok] at hr
    simp only [exceptPure, Except.ok.injEq] at hr
    rw [← hr]
    exact ManagerInv_setAgent h (AgentInv_set_location (AgentInv_of_getAgent h hl) loc)

theorem updateAgentSkill_ManagerInv {m m' : AgentManager} {agentId skill : String}
    {delta : ℚ} (h : ManagerInv m)
    (hr : updateAgentSkill m agentId skill delta = Except.ok m') :
    ManagerInv m' := by
  unfold updateAgentSkill getAgentOrRaise at hr
  cases hl : getAgent m agentId with
  | none =>
    rw [hl, exceptBind_error] at hr
    simp at hr
  | some a =>
    rw [hl, exceptBind_ok] at hr
    simp only [exceptPure, Except.ok.injEq] at hr
    rw [← hr]
    exact ManagerInv_setAgent h (AgentInv_set_skills (AgentInv_of_getAgent h hl) _)

theorem applyInventoryDeltas_ManagerInv {agentId : String} :
    ∀ (l : List (String × Int)) {m m' : AgentManager}, ManagerInv m →
      applyInventoryDeltas m agentId l = Except.ok m' → ManagerInv m'
  | [], _, _, h, hr => by
    unfold applyInventoryDeltas at hr
    simp only [Except.ok.injEq] at hr
    rw [← hr]
    exact h
  | (item, d) :: rest, m, m', h, hr => by
    unfold applyInventoryDeltas at hr
    cases hu : updateAgentInventory m agentId item d with
    | error e =>
      rw [hu, exceptBind_error] at hr
      simp at hr
    | ok r =>
      rw [hu, exceptBind_ok] at hr
      exact applyInventoryDeltas_ManagerInv rest
        (updateAgentInventory_ManagerInv h hu) hr

theorem applySkillGains_ManagerInv {agentId : String} :
    ∀ (l : List (String × ℚ)) {m m' : AgentManager}, ManagerInv m →
      applySkillGains m agentId l = Except.ok m' → ManagerInv m'
  | [], _, _, h, hr => by
    unfold applySkillGains at hr
    simp only [Except.ok.injEq] at hr
    rw [← hr]
    exact h
  | (skill, g) :: rest, m, m', h, hr => by
    unfold applySkillGains at hr
    cases hu : updateAgentSkill m agentId skill g with
    | error e =>
      rw [hu, exceptBind_error] at hr
      simp at hr
    | ok r =>
      rw [hu, exceptBind_ok] at hr
      exact applySkillGains_ManagerInv rest (updateAgentSkill_ManagerInv h hu) hr

theorem applyTransferList_ManagerInv {srcId dstId : String} :
    ∀ (l : List (String × Int)) {m m' : AgentManager}, ManagerInv m →
      applyTransferList m srcId dstId l = Except.ok m' → ManagerInv m'
  | [], _, _, h, hr => by
    unfold applyTransferList at hr
    simp only [Except.ok.injEq] at hr
    rw [← hr]
    exact h
  | (item, q) :: rest, m, m', h, hr => by
    unfold applyTransferList at hr
    cases hu : updateAgentInventory m srcId item (-q) with
    | error e =>
      rw [hu, exceptBind_error] at hr
      simp at hr
    | ok r =>
      obtain ⟨b1, m1⟩ := r
      rw [hu, exceptBind_ok] at hr
      dsimp only at hr
      cases hu2 : updateAgentInventory m1 dstId item q with
      | error e =>
        rw [hu2, exceptBind_error] at hr
        simp at hr
      | ok r2 =>
        obtain ⟨b2, m2⟩ := r2
        rw [hu2, exceptBind_ok] at hr
        exact applyTransferList_ManagerInv rest
          (updateAgentInventory_ManagerInv
            (updateAgentInventory_ManagerInv h hu) hu2) hr

theorem handleMove_ManagerInv {st st' : InterpState} {aid dest : String} {o : ActionOutcome}
    (h : ManagerInv st.agents) (hr : handleMove st aid dest = Except.ok (o, st')) :
    ManagerInv st'.agents := by
  unfold handleMove at hr
  cases hl : getAgent st.agents aid with
  | none =>
    rw [hl] at hr
    simp only [Except.ok.injEq, Prod.mk.injEq] at hr
    rw [← hr.2]
    exact h
  | some agent =>
    rw [hl] at hr
    cases hn : getNode st.graph dest with
    | none =>
      rw [hn] at hr
      simp only [Except.ok.injEq, Prod.mk.injEq] at hr
      rw [← hr.2]
      exact h
    | some nd =>
      rw [hn] at hr
      have hup : updateAgentLocation st.agents aid dest =
          Except.ok (setAgent st.agents aid { agent with location := dest }) := by
        simp [updateAgentLocation, getAgentOrRaise, hl, exceptBind_ok, exceptPure]
      have hok : ManagerInv (setAgent st.agents aid { agent with location := dest }) :=
        ManagerInv_setAgent h (AgentInv_set_location (AgentInv_of_getAgent h hl) dest)
      dsimp only at hr
      by_cases hg : agent.location ≠ "" ∧ agent.location ≠ dest
      · rw [if_pos hg] at hr
        by_cases hnb : dest ∉ getNeighbors st.graph agent.location
        · rw [if_pos hnb] at hr
          simp only [Except.ok.injEq, Prod.mk.injEq] at hr
          rw [← hr.2]
          exact h
        · rw [if_neg hnb] at hr
          by_cases htc : travelCost st.graph agent.location dest = none
          · rw [if_pos htc] at hr
            simp only [Except.ok.injEq, Prod.mk.injEq] at hr
            rw [← hr.2]
            exact h
          · rw [if_neg htc] at hr
            rw [hup, exceptBind_ok] at hr
            simp only [exceptPure, Except.ok.injEq, Prod.mk.injEq] at hr
            rw [← hr.2]
            exact hok
      · rw [if_neg hg] at hr
        rw [hup, exceptBind_ok] at hr
        simp only [exceptPure, Except.ok.injEq, Prod.mk.injEq] at hr
        rw [← hr.2]
        exact hok

theorem handleHarvest_ManagerInv {st st' : InterpState} {aid rt : String} {amount : Int}
    {o : ActionOutcome} (h : ManagerInv st.agents)
    (hr : handleHarvest st aid rt amount = Except.ok (o, st')) :
    ManagerInv st'.agents := by
  unfold handleHarvest at hr
  cases hl : getAgent st.agents aid with
  | none =>
    rw [hl] at hr
    simp only [Except.ok.injEq, Prod.mk.injEq] at hr
    rw [← hr.2]
    exact h
  | some agent =>
    rw [hl] at hr
    dsimp only at hr
    cases hn : getNode st.graph agent.location with
    | none =>
      rw [hn] at hr
      simp only [Except.ok.injEq, Prod.mk.injEq] at hr
      rw [← hr.2]
      exact h
    | some node =>
      rw [hn] at hr
      dsimp only at hr
      by_cases hric : (List.lookup rt node.resourceRichness).getD 0 ≤ 0
      · rw [if_pos hric] at hr
        simp only [Except.ok.injEq, Prod.mk.injEq] at hr
        rw [← hr.2]
        exact h
      · rw [if_neg hric] at hr
        have hcont : ∀ (amt : Int),
            (do
              let r ← updateAgentInventory st.agents aid rt amt
              match r with
              | (success, m') =>
                if !success then
                  Except.ok (failOutcome "Failed to update inventory", st)
                else
                  Except.ok
                    (⟨if amt = amount then ActionResult.SUCCESS else ActionResult.PARTIAL,
                      "Harvested " ++ rt,
                      StateChanges.harvested aid rt amt agent.location, []⟩,
                    { st with agents := m' })) = Except.ok (o, st') →
            ManagerInv st'.agents := by
          intro amt hc
          cases hu : updateAgentInventory st.agents aid rt amt with
          | error e =>
            rw [hu, exceptBind_error] at hc
            simp at hc
          | ok r =>
            obtain ⟨b, m'⟩ := r
            rw [hu, exceptBind_ok] at hc
            dsimp only at hc
            cases b with
            | false =>
              simp only [Bool.not_false, if_pos, Except.ok.injEq, Prod.mk.injEq] at hc
              rw [← hc.2]
              exact h
            | true =>
              simp only [Bool.not_true, Bool.false_eq_true, if_false,
                Except.ok.injEq, Prod.mk.injEq] at hc
              rw [← hc.2]
              exact updateAgentInventory_ManagerInv h hu
        by_cases hsp : agent.inventorySpace < amount
        · rw [if_pos hsp] at hr
          by_cases h0 : agent.inventorySpace ≤ 0
          · rw [if_pos h0] at hr
            simp only [Except.ok.injEq, Prod.mk.injEq] at hr
            rw [← hr.2]
            exact h
          · rw [if_neg h0] at hr
            exact hcont _ hr
        · rw [if_neg hsp] at hr
          exact hcont _ hr

theorem handleCraft_ManagerInv {st st' : InterpState} {aid rid : String} {quantity : Int}
    {o : ActionOutcome} (h : ManagerInv st.agents)
    (hr : handleCraft st aid rid quantity = Except.ok (o, st')) :
    ManagerInv st'.agents := by
  unfold handleCraft at hr
  cases hl : getAgent st.agents aid with
  | none =>
    rw [hl] at hr
    simp only [Except.ok.injEq, Prod.mk.injEq] at hr
    rw [← hr.2]
    exact h
  | some agent =>
    rw [hl] at hr
    dsimp only at hr
    cases hrec : List.lookup rid st.crafting with
    | none =>
      rw [hrec] at hr
      simp only [Except.ok.injEq, Prod.mk.injEq] at hr
      rw [← hr.2]
      exact h
    | some recipe =>
      rw [hrec] at hr
      dsimp only at hr
      cases hf : List.find? (fun p => decide (invGet agent.inventory p.1 < p.2 * quantity))
          recipe.inputs with
      | some p =>
        rw [hf] at hr
        dsimp only at hr
        simp only [Except.ok.injEq, Prod.mk.injEq] at hr
        rw [← hr.2]
        exact h
      | none =>
        rw [hf] at hr
        dsimp only at hr
        by_cases hnet : (recipe.outputs.map (fun p => p.2 * quantity)).sum -
            (recipe.inputs.map (fun p => p.2 * quantity)).sum > 0 ∧
            agent.inventorySpace < (recipe.outputs.map (fun p => p.2 * quantity)).sum -
              (recipe.inputs.map (fun p => p.2 * quantity)).sum
        · rw [if_pos hnet] at hr
          simp only [Except.ok.injEq, Prod.mk.injEq] at hr
          rw [← hr.2]
          exact h
        · rw [if_neg hnet] at hr
          cases h1 : applyInventoryDeltas st.agents aid
              (recipe.inputs.map (fun p => (p.1, -(p.2 * quantity)))) with
          | error e =>
            rw [h1, exceptBind_error] at hr
            simp at hr
          | ok m1 =>
            rw [h1, exceptBind_ok] at hr
            cases h2 : applyInventoryDeltas m1 aid
                (recipe.outputs.map (fun p => (p.1, p.2 * quantity))) with
            | error e =>
              rw [h2, exceptBind_error] at hr
              simp at hr
            | ok m2 =>
              rw [h2, exceptBind_ok] at hr
              cases h3 : applySkillGains m2 aid
                  (recipe.skillGain.map (fun p => (p.1, p.2 * (quantity : ℚ)))) with
              | error e =>
                rw [h3, exceptBind_error] at hr
                simp at hr
              | ok m3 =>
                rw [h3, exceptBind_ok] at hr
                simp only [exceptPure, Except.ok.injEq, Prod.mk.injEq] at hr
                rw [← hr.2]
                exact applySkillGains_ManagerInv _
                  (applyInventoryDeltas_ManagerInv _
                    (applyInventoryDeltas_ManagerInv _ h h1) h2) h3

theorem handleMessage_ManagerInv {st st' : InterpState} {aid : String}
    {recipientId : Option String} {channel : String} {o : ActionOutcome}
    (h : ManagerInv st.agents)
    (hr : handleMessage st aid recipientId channel = Except.ok (o, st')) :
    ManagerInv st'.agents := by
  unfold handleMessage at hr
  cases hl : getAgent st.agents aid with
  | none =>
    rw [hl] at hr
    simp only [Except.ok.injEq, Prod.mk.injEq] at hr
    rw [← hr.2]
    exact h
  | some agent =>
    rw [hl] at hr
    dsimp only at hr
    by_cases hch : channel = "direct" ∧ recipientId.getD "" ≠ ""
    · rw [if_pos hch] at hr
      cases hrec : getAgent st.agents (recipientId.getD "") with
      | none =>
        rw [hrec] at hr
        simp only [Except.ok.injEq, Prod.mk.injEq] at hr
        rw [← hr.2]
        exact h
      | some r =>
        rw [hrec] at hr
        simp only [Except.ok.injEq, Prod.mk.injEq] at hr
        rw [← hr.2]
        exact h
    · rw [if_neg hch] at hr
      simp only [Except.ok.injEq, Prod.mk.injEq] at hr
      rw [← hr.2]
      exact h

theorem handleTradeProposal_ManagerInv {st st' : InterpState} {aid targetId pid : String}
    {offered requested : List TradeItem} {ts : ℚ} {o : ActionOutcome}
    (h : ManagerInv st.agents)
    (hr : handleTradeProposal st aid targetId offered requested pid ts =
      Except.ok (o, st')) :
    ManagerInv st'.agents := by
  unfold handleTradeProposal at hr
  cases hl : getAgent st.agents aid with
  | none =>
    rw [hl] at hr
    simp only [Except.ok.injEq, Prod.mk.injEq] at hr
    rw [← hr.2]
    exact h
  | some agent =>
    rw [hl] at hr
    dsimp only at hr
    cases ht : getAgent st.agents targetId with
    | none =>
      rw [ht] at hr
      simp only [Except.ok.injEq, Prod.mk.injEq] at hr
      rw [← hr.2]
      exact h
    | some target =>
      rw [ht] at hr
      dsimp only at hr
      cases hf : List.find? (fun i => decide (invGet agent.inventory i.itemType < i.quantity))
          offered with
      | some i =>
        rw [hf] at hr
        simp only [Except.ok.injEq, Prod.mk.injEq] at hr
        rw [← hr.2]
        exact h
      | none =>
        rw [hf] at hr
        simp only [Except.ok.injEq, Prod.mk.injEq] at hr
        rw [← hr.2]
        exact h

theorem handleAcceptTrade_ManagerInv {st st' : InterpState} {aid pid : String}
    {accept : Bool} {o : ActionOutcome} (h : ManagerInv st.agents)
    (hr : handleAcceptTrade st aid pid accept = Except.ok (o, st')) :
    ManagerInv st'.agents := by
  unfold handleAcceptTrade at hr
  cases hpt : List.lookup pid st.pendingTrades with
  | none =>
    rw [hpt] at hr
    simp only [Except.ok.injEq, Prod.mk.injEq] at hr
    rw [← hr.2]
    exact h
  | some pt =>
    rw [hpt] at hr
    dsimp only at hr
    by_cases hne : aid ≠ pt.targetId
    · rw [if_pos hne] at hr
      simp only [Except.ok.injEq, Prod.mk.injEq] at hr
      rw [← hr.2]
      exact h
    · rw [if_neg hne] at hr
      cases accept with
      | false =>
        simp only [Bool.not_false, if_pos, Except.ok.injEq, Prod.mk.injEq] at hr
        rw [← hr.2]
        exact h
      | true =>
        simp only [Bool.not_true, Bool.false_eq_true, if_false] at hr
        cases hP : getAgent st.agents pt.proposerId with
        | none =>
          rw [hP] at hr
          simp only [Except.ok.injEq, Prod.mk.injEq] at hr
          rw [← hr.2]
          exact h
        | some proposer =>
          rw [hP] at hr
          cases hT : getAgent st.agents pt.targetId with
          | none =>
            rw [hT] at hr
            dsimp only at hr
            simp only [Except.ok.injEq, Prod.mk.injEq] at hr
            rw [← hr.2]
            exact h
          | some target =>
            rw [hT] at hr
            dsimp only at hr
            cases hf1 : List.find? (fun p => decide (invGet proposer.inventory p.1 < p.2))
                pt.offeredItems with
            | some p =>
              rw [hf1] at hr
              simp only [Except.ok.injEq, Prod.mk.injEq] at hr
              rw [← hr.2]
              exact h
            | none =>
              rw [hf1] at hr
              dsimp only at hr
              cases hf2 : List.find? (fun p => decide (invGet target.inventory p.1 < p.2))
                  pt.requestedItems with
              | some p =>
                rw [hf2] at hr
                simp only [Except.ok.injEq, Prod.mk.injEq] at hr
                rw [← hr.2]
                exact h
              | none =>
                rw [hf2] at hr
                dsimp only at hr
                cases h1 : applyTransferList st.agents pt.proposerId pt.targetId
                    pt.offeredItems with
                | error e =>
                  rw [h1, exceptBind_error] at hr
                  simp at hr
                | ok m1 =>
                  rw [h1, exceptBind_ok] at hr
                  cases h2 : applyTransferList m1 pt.targetId pt.proposerId
                      pt.requestedItems with
                  | error e =>
                    rw [h2, exceptBind_error] at hr
                    simp at hr
                  | ok m2 =>
                    rw [h2, exceptBind_ok] at hr
                    simp only [exceptPure, Except.ok.injEq, Prod.mk.injEq] at hr
                    rw [← hr.2]
                    exact applyTransferList_ManagerInv _
                      (applyTransferList_ManagerInv _ h h1) h2

theorem handleGroupAction_ManagerInv {st st' : InterpState} {aid : String}
    {o : ActionOutcome} (h : ManagerInv st.agents)
    (hr : handleGroupAction st aid = Except.ok (o, st')) : ManagerInv st'.agents := by
  unfold handleGroupAction at hr
  cases hl : getAgent st.agents aid with
  | none =>
    rw [hl] at hr
    simp only [Except.ok.injEq, Prod.mk.injEq] at hr
    rw [← hr.2]
    exact h
  | some agent =>
    rw [hl] at hr
    simp only [Except.ok.injEq, Prod.mk.injEq] at hr
    rw [← hr.2]
    exact h

theorem handleIdle_ManagerInv {st st' : InterpState} {aid : String}
    {o : ActionOutcome} (h : ManagerInv st.agents)
    (hr : handleIdle st aid = Except.ok (o, st')) : ManagerInv st'.agents := by
  unfold handleIdle at hr
  cases hl : getAgent st.agents aid with
  | none =>
    rw [hl] at hr
    simp only [Except.ok.injEq, Prod.mk.injEq] at hr
    rw [← hr.2]
    exact h
  | some agent =>
    rw [hl] at hr
    simp only [Except.ok.injEq, Prod.mk.injEq] at hr
    rw [← hr.2]
    exact h

theorem execute_ManagerInv (st : InterpState) (a : Action) (h : ManagerInv st.agents) :
    ManagerInv (execute st a).2.agents := by
  unfold execute
  by_cases hv : validateAction a ≠ []
  · rw [if_pos hv]
    exact h
  · rw [if_neg hv]
    cases hd : dispatch st a with
    | error e => exact h
    | ok r =>
      obtain ⟨o, st'⟩ := r
      show ManagerInv st'.agents
      unfold dispatch at hd
      cases a with
      | move aid dest ts => exact handleMove_ManagerInv h hd
      | harvest aid rt amount ts => exact handleHarvest_ManagerInv h hd
      | craft aid rid quantity ts => exact handleCraft_ManagerInv h hd
      | message aid recipient channel content ts => exact handleMessage_ManagerInv h hd
      | tradeProposal aid target offered requested pid ts =>
        exact handleTradeProposal_ManagerInv h hd
      | acceptTrade aid pid accept ts => exact handleAcceptTrade_ManagerInv h hd
      | groupAct aid gat gid ts => exact handleGroupAction_ManagerInv h hd
      | idle aid reason ts => exact handleIdle_ManagerInv h hd

theorem executeAll_ManagerInv (st : InterpState) (acts : List Action)
    (h : ManagerInv st.agents) : ManagerInv (executeAll st acts).agents := by
  induction acts generalizing st with
  | nil => exact h
  | cons a rest ih => exact ih (execute st a).2 (execute_ManagerInv st a h)

/-- C6: starting from any state whose agents all have well-formed,
nonnegative inventories within capacity, any sequence of
interpreter-executed actions preserves this: no inventory quantity ever
goes negative and no agent's total ever exceeds its capacity. -/
theorem inventory_invariants_preserved (st : InterpState) (acts : List Action)
    (h : ManagerInv st.agents) :
    ∀ p ∈ (executeAll st acts).agents,
      invNonneg p.2.inventory ∧ p.2.inventoryCount ≤ p.2.capacity := by
  intro p hp
  have := executeAll_ManagerInv st acts h p hp
  exact ⟨this.2.1, this.2.2⟩

/-- C6 witness: the trade-settlement scenario (including the capacity-blocked
transfer) keeps every inventory nonnegative and within capacity. -/
theorem inventory_invariants_preserved_witness :
    ManagerInv consState.agents ∧
    ∀ p ∈ (executeAll consState [consAccept]).agents,
      invNonneg p.2.inventory ∧ p.2.inventoryCount ≤ p.2.capacity :=
  ⟨by decide, inventory_invariants_preserved consState [consAccept] (by decide)⟩

/-! ## C7: mandatory rest -/

/-- The limiter after five consecutive recorded successes for agent `a`
starting from a fresh limiter at tick 0. -/
def rest5 : RateLimiter :=
  limiterRun RateLimiter.init (List.replicate 5 (LimiterOp.reqSuccess "a"))

/-- C7 counterexample: the mandatory rest imposed after the 5th success is
not a one-tick rest.  Two tick advances later (tick 2, no night mode, no
cooldown, ample wall-clock time) `can_make_request` still denies the agent
with the mandatory-rest reason: nothing in the rate limiter ever clears the
resting set on a plain tick change, and no caller invokes `clear_rest`. -/
theorem mandatory_rest_not_one_tick :
    rest5.restingAgents = ["a"] ∧
    ((rest5.setTick 1).setTick 2).currentTick = 2 ∧
    ((rest5.setTick 1).setTick 2).isNight = false ∧
    ((rest5.setTick 1).setTick 2).canMakeRequest "a" 1000 =
      (false, "Mandatory rest period (preventing API overload)") := by
  decide

theorem cooldownOf_setCooldown (rl : RateLimiter) (aid : String) (c : AgentCooldown) :
    (rl.setCooldown aid c).cooldownOf aid = c := by
  simp [RateLimiter.cooldownOf, RateLimiter.setCooldown, assocSet]

theorem recordRequestErrorPre_proj (rl : RateLimiter) (agentId message : String)
    (now : ℚ) :
    ((rl.recordRequestErrorPre agentId message now).currentTick = rl.currentTick) ∧
    ((rl.recordRequestErrorPre agentId message now).isNight = rl.isNight) ∧
    ((rl.recordRequestErrorPre agentId message now).nightStartTick = rl.nightStartTick) ∧
    ((rl.recordRequestErrorPre agentId message now).nightDurationTicks =
      rl.nightDurationTicks) ∧
    ((rl.recordRequestErrorPre agentId message now).errorCountThisTick =
      rl.errorCountThisTick + 1) ∧
    ((rl.recordRequestErrorPre agentId message now).errorThresholdForNight =
      rl.errorThresholdForNight) := by
  unfold RateLimiter.recordRequestErrorPre RateLimiter.setCooldown
  simp

/-- C7 amended: every recorded success — whether or not it triggers a rest —
zeroes the agent's consecutive-error counter and increments its success
counter; when mandatory rest is enabled and the new success total is a
multiple of `mandatory_rest_interval` the agent enters the resting set; a
resting agent (night off, not on cooldown) is denied with the
mandatory-rest reason; and the resting set survives any tick change while
night mode is off — the rest lasts until explicitly cleared, not one
tick. -/
theorem mandatory_rest_semantics (rl : RateLimiter) (aid : String) (t : Int) :
    ((rl.recordRequestSuccess aid).cooldownOf aid).consecutiveErrors = 0 ∧
    ((rl.recordRequestSuccess aid).cooldownOf aid).successfulRequests =
      (rl.cooldownOf aid).successfulRequests + 1 ∧
    (rl.enableMandatoryRest = true →
      ((rl.cooldownOf aid).successfulRequests + 1) % rl.mandatoryRestInterval = 0 →
      aid ∈ (rl.recordRequestSuccess aid).restingAgents) ∧
    (∀ rl2 : RateLimiter, rl2.isNight = false →
      (rl2.setTick t).restingAgents = rl2.restingAgents) ∧
    (∀ (rl2 : RateLimiter) (now : ℚ), rl2.isNight = false →
      (rl2.cooldownOf aid).isOnCooldown now = false →
      aid ∈ rl2.restingAgents →
      rl2.canMakeRequest aid now =
        (false, "Mandatory rest period (preventing API overload)")) := by
  refine ⟨?_, ?_, ?_, ?_, ?_⟩
  · unfold RateLimiter.recordRequestSuccess
    dsimp only
    split
    · simp [RateLimiter.setCooldown, RateLimiter.cooldownOf, assocSet]
    · simp [RateLimiter.setCooldown, RateLimiter.cooldownOf, assocSet]
  · unfold RateLimiter.recordRequestSuccess
    dsimp only
    split
    · simp [RateLimiter.setCooldown, RateLimiter.cooldownOf, assocSet]
    · simp [RateLimiter.setCooldown, RateLimiter.cooldownOf, assocSet]
  · intro hen hmul
    have hmul' : (((List.lookup aid rl.agentCooldowns).getD
        AgentCooldown.init).successfulRequests + 1) % rl.mandatoryRestInterval = 0 := by
      simpa [RateLimiter.cooldownOf] using hmul
    simp [RateLimiter.recordRequestSuccess, RateLimiter.setCooldown,
      RateLimiter.cooldownOf, assocSet, hen, hmul']
  · intro rl2 hn2
    unfold RateLimiter.setTick
    by_cases ht : t ≠ rl2.currentTick
    · rw [if_pos ht]
      rw [if_neg (by simp [hn2])]
    · rw [if_neg ht]
  · intro rl2 now hn2 hcd hrest
    unfold RateLimiter.canMakeRequest
    rw [if_neg (by simp [hn2]), if_neg (by simp [hcd]), if_pos hrest]

/-- C7 witness: the fresh limiter after four successes; the fifth success
puts agent `a` into the resting set. -/
theorem mandatory_rest_semantics_witness :
    "a" ∈ ((limiterRun RateLimiter.init
      (List.replicate 4 (LimiterOp.reqSuccess "a"))).recordRequestSuccess "a").restingAgents :=
  (mandatory_rest_semantics
    (limiterRun RateLimiter.init (List.replicate 4 (LimiterOp.reqSuccess "a")))
    "a" 7).2.2.1 (by decide) (by decide)

/-! ## C8: night mode -/

/-- Night mode never outlives its window: while night is on, the current
tick is strictly before `start + duration`. -/
def NightInv (rl : RateLimiter) : Prop :=
  rl.isNight = true → rl.currentTick < rl.nightStartTick + rl.nightDurationTicks

theorem NightInv_init : NightInv RateLimiter.init := by
  intro h
  simp [RateLimiter.init] at h

theorem NightInv_setTick {rl : RateLimiter} (h : NightInv rl) (t : Int) :
    NightInv (rl.setTick t) := by
  unfold RateLimiter.setTick
  by_cases ht : t ≠ rl.currentTick
  · rw [if_pos ht]
    by_cases hcl : rl.isNight = true ∧ t ≥ rl.nightStartTick + rl.nightDurationTicks
    · rw [if_pos (by simpa using hcl)]
      intro hN
      simp at hN
    · rw [if_neg (by simpa using hcl)]
      intro hN
      simp only at hN
      have : ¬ (t ≥ rl.nightStartTick + rl.nightDurationTicks) := fun hge =>
        hcl ⟨hN, hge⟩
      simpa using by omega
  · rw [if_neg ht]
    exact h

theorem NightInv_step {rl : RateLimiter} (h : NightInv rl) (op : LimiterOp) :
    NightInv (limiterStep rl op) := by
  cases op with
  | setTick t => exact NightInv_setTick h t
  | reqStart a now =>
    intro hN
    exact h hN
  | reqSuccess a =>
    intro hN
    unfold limiterStep RateLimiter.recordRequestSuccess at hN ⊢
    dsimp only at hN ⊢
    revert hN
    split
    · intro hN
      exact h hN
    · intro hN
      exact h hN
  | reqError a msg now =>
    obtain ⟨p1, p2, p3, p4, p5, p6⟩ := recordRequestErrorPre_proj rl a msg now
    unfold NightInv limiterStep RateLimiter.recordRequestError
    dsimp only
    by_cases hc : (rl.recordRequestErrorPre a msg now).errorCountThisTick ≥
        (rl.recordRequestErrorPre a msg now).errorThresholdForNight
    · rw [if_pos hc]
      intro _
      unfold RateLimiter.triggerNightMode
      dsimp only
      omega
    · rw [if_neg hc]
      intro hN
      rw [p1, p3, p4]
      exact h (p2 ▸ hN)

theorem NightInv_run {rl : RateLimiter} (h : NightInv rl) (ops : List LimiterOp) :
    NightInv (limiterRun rl ops) := by
  induction ops generalizing rl with
  | nil => exact h
  | cons op rest ih => exact ih (NightInv_step h op)

/-- C8: (a) a third same-tick error trips night mode; (b) while night mode
is on every agent's request is denied; (c) a tick change strictly before
`start + duration` keeps night mode on; (d) under the night invariant
(which holds in every reachable state, by (e)) a `set_tick` at or past
`start + duration` clears night mode; (e) the invariant is preserved by
every operation sequence; (f) any tick change resets the per-tick error
counter. -/
theorem night_mode_semantics (rl : RateLimiter) (aid message : String) (now : ℚ)
    (t : Int) (ops : List LimiterOp) :
    (rl.errorThresholdForNight = 3 → 3 ≤ rl.errorCountThisTick + 1 →
      ((rl.recordRequestError aid message now).2).isNight = true) ∧
    (rl.isNight = true → (rl.canMakeRequest aid now).1 = false) ∧
    (rl.isNight = true → t < rl.nightStartTick + rl.nightDurationTicks →
      (rl.setTick t).isNight = true) ∧
    (NightInv rl → t ≥ rl.nightStartTick + rl.nightDurationTicks →
      (rl.setTick t).isNight = false) ∧
    (NightInv rl → NightInv (limiterRun rl ops)) ∧
    (t ≠ rl.currentTick → (rl.setTick t).errorCountThisTick = 0) := by
  refine ⟨?_, ?_, ?_, ?_, ?_, ?_⟩
  · intro hth hcount
    obtain ⟨p1, p2, p3, p4, p5, p6⟩ := recordRequestErrorPre_proj rl aid message now
    unfold RateLimiter.recordRequestError
    dsimp only
    rw [if_pos (by rw [p5, p6, hth]; omega)]
    simp [RateLimiter.triggerNightMode]
  · intro hN
    unfold RateLimiter.canMakeRequest
    rw [if_pos (by simp [hN])]
  · intro hN hlt
    unfold RateLimiter.setTick
    by_cases ht : t ≠ rl.currentTick
    · rw [if_pos ht]
      rw [if_neg (by simp; intro _; omega)]
      exact hN
    · rw [if_neg ht]
      exact hN
  · intro hInv hge
    cases hN : rl.isNight with
    | false =>
      unfold RateLimiter.setTick
      by_cases ht : t ≠ rl.currentTick
      · rw [if_pos ht]
        rw [if_neg (by simp [hN])]
        exact hN
      · rw [if_neg ht]
        exact hN
    | true =>
      have hlt := hInv hN
      unfold RateLimiter.setTick
      rw [if_pos (by omega)]
      rw [if_pos (by simp [hN]; omega)]
  · intro hInv
    exact NightInv_run hInv ops
  · intro ht
    unfold RateLimiter.setTick
    rw [if_pos ht]
    by_cases hcl : rl.isNight = true ∧ t ≥ rl.nightStartTick + rl.nightDurationTicks
    · rw [if_pos (by simpa using hcl)]
    · rw [if_neg (by simpa using hcl)]

/-- The limiter after two recorded errors (distinct agents) at tick 0. -/
def err2 : RateLimiter :=
  limiterRun RateLimiter.init
    [LimiterOp.reqError "a" "" 0, LimiterOp.reqError "b" "" 0]

/-- C8 witness: the third same-tick error trips night mode; a request is
then denied; and a `set_tick` at `start + duration` (tick 5) clears it. -/
theorem night_mode_semantics_witness :
    ((err2.recordRequestError "c" "" 0).2).isNight = true ∧
    (((err2.recordRequestError "c" "" 0).2).canMakeRequest "a" 100).1 = false ∧
    (((err2.recordRequestError "c" "" 0).2).setTick 5).isNight = false := by
  have h1 := (night_mode_semantics err2 "c" "" 0 5 []).1 (by decide) (by decide)
  have h2 := (night_mode_semantics ((err2.recordRequestError "c" "" 0).2) "a" "" 100 5 []).2.1 h1
  have h3 := (night_mode_semantics ((err2.recordRequestError "c" "" 0).2) "a" "" 100 5 []).2.2.2.1
    (by
      intro hN
      decide) (by decide)
  exact ⟨h1, by simpa using h2, h3⟩

/-! ## C9: hook failure isolation -/

/-- C9: a hook whose `execute` raises never propagates the exception:
`execute_phase` yields for it a `HookResult` with `success = false` carrying
the error text, that result is appended to the execution history (it sits in
`history ++ results`, and in the stored history whenever the total fits the
bound), and the stored history never exceeds the configured maximum when it
did not before and the maximum is positive. -/
theorem hook_exception_isolated (m : HookManager) (phase : HookPhase) (h : Hook)
    (msg : String)
    (hmem : h ∈ (List.lookup phase m.hooks).getD [])
    (hen : h.enabled = true)
    (hexec : h.exec = Except.error msg) :
    (∃ r ∈ (m.executePhase phase).1,
      r.success = false ∧ r.error = some msg ∧ r.hookName = h.name ∧ r.phase = phase) ∧
    (∀ r ∈ (m.executePhase phase).1,
      r ∈ m.executionHistory ++ (m.executePhase phase).1) ∧
    ((m.executionHistory ++ (m.executePhase phase).1).length ≤ m.maxHistory →
      ∀ r ∈ (m.executePhase phase).1, r ∈ (m.executePhase phase).2.executionHistory) ∧
    (1 ≤ m.maxHistory → m.executionHistory.length ≤ m.maxHistory →
      (m.executePhase phase).2.executionHistory.length ≤ m.maxHistory) := by
  have hres : (m.executePhase phase).1 =
      ((List.lookup phase m.hooks).getD []).map
        (fun h => { callHook h with phase := phase }) := rfl
  refine ⟨?_, ?_, ?_, ?_⟩
  · refine ⟨{ callHook h with phase := phase }, ?_, ?_, ?_, ?_, rfl⟩
    · rw [hres]
      exact List.mem_map.mpr ⟨h, hmem, rfl⟩
    · simp [callHook, hen, hexec]
    · simp [callHook, hen, hexec]
    · simp [callHook, hen, hexec]
  · intro r hr
    exact List.mem_append_right _ hr
  · intro hfit r hr
    show r ∈ (let hist1 := m.executionHistory ++ (m.executePhase phase).1
      if hist1.length > m.maxHistory then
        if m.maxHistory = 0 then hist1 else hist1.drop (hist1.length - m.maxHistory)
      else hist1)
    rw [if_neg (by omega)]
    exact List.mem_append_right _ hr
  · intro hpos hbound
    show (let hist1 := m.executionHistory ++ (m.executePhase phase).1
      if hist1.length > m.maxHistory then
        if m.maxHistory = 0 then hist1 else hist1.drop (hist1.length - m.maxHistory)
      else hist1).length ≤ m.maxHistory
    dsimp only
    by_cases hover : (m.executionHistory ++ (m.executePhase phase).1).length > m.maxHistory
    · rw [if_pos hover, if_neg (by omega)]
      rw [List.length_drop]
      omega
    · rw [if_neg hover]
      omega

/-- A one-hook manager whose hook always raises. -/
def throwingHook : Hook :=
  ⟨"boom", 0, true, Except.error "exploded"⟩

/-- A manager with `throwingHook` registered for `BEFORE_TICK`. -/
def throwingManager : HookManager :=
  HookManager.init.register HookPhase.BEFORE_TICK throwingHook

/-- C9 witness: executing the BEFORE_TICK phase of `throwingManager`
yields a failed result carrying the error, still appended to the bounded
history. -/
theorem hook_exception_isolated_witness :
    (∃ r ∈ (throwingManager.executePhase HookPhase.BEFORE_TICK).1,
      r.success = false ∧ r.error = some "exploded" ∧ r.hookName = "boom" ∧
      r.phase = HookPhase.BEFORE_TICK) ∧
    (1 ≤ throwingManager.maxHistory →
      throwingManager.executionHistory.length ≤ throwingManager.maxHistory →
      (throwingManager.executePhase HookPhase.BEFORE_TICK).2.executionHistory.length ≤
        throwingManager.maxHistory) := by
  have h := hook_exception_isolated throwingManager HookPhase.BEFORE_TICK
    throwingHook "exploded" (by decide) (by decide) (by decide)
  exact ⟨h.1, h.2.2.2⟩

/-! ## C5: tick phase order -/

/-- The phase-order property claimed by the spec: in every tick's trace,
all due scheduled-event dispatches come before all `before_tick` hook
invocations.  (`filter` of the union splitting as the two filters
concatenated says exactly that every event of the first kind precedes every
event of the second kind.) -/
def schedBeforeHooks (tr : List TraceEv) : Prop :=
  tr.filter (fun ev => isSchedDispatch ev || isBeforeTickHook ev) =
    tr.filter isSchedDispatch ++ tr.filter isBeforeTickHook

/-- An engine with one `before_tick` hook and one due scheduled event. -/
def tinyEngine : TickEngine :=
  ⟨0, ["h"], [], [], [], [], [], [⟨0, "ev", false, 0⟩], []⟩

/-- C5 counterexample: the claimed order "scheduled events first, then
before_tick hooks" is false — `execute_tick` invokes the `before_tick`
hooks (line 197) before `_process_scheduled_events()` (line 199), so the
trace is hook-then-event. -/
theorem sched_not_before_hooks :
    (executeTickTrace tinyEngine).1 =
      [TraceEv.hookInvoked "before_tick" "h", TraceEv.schedDispatched "ev"] ∧
    ¬ schedBeforeHooks (executeTickTrace tinyEngine).1 := by
  constructor
  · decide
  · unfold schedBeforeHooks
    decide

theorem filter_map_false {α β : Type} (f : α → β) (p : β → Bool)
    (h : ∀ a, p (f a) = false) (l : List α) : (l.map f).filter p = [] := by
  induction l with
  | nil => rfl
  | cons x xs ih => simp [h, ih]

theorem filter_map_true {α β : Type} (f : α → β) (p : β → Bool)
    (h : ∀ a, p (f a) = true) (l : List α) : (l.map f).filter p = l.map f := by
  induction l with
  | nil => rfl
  | cons x xs ih => simp [h, ih]

/-- The per-agent segment of a tick trace: the `before_agent_action`
hooks, the action execution, the `after_agent_action` hooks. -/
def agentSegment (e : TickEngine) (aid : String) : List TraceEv :=
  e.beforeAgentActionHooks.map (TraceEv.hookInvoked "before_agent_action") ++
  TraceEv.agentActionExecuted aid ::
  e.afterAgentActionHooks.map (TraceEv.hookInvoked "after_agent_action")

theorem agentSegment_filter_beforeTick (e : TickEngine) (aid : String) :
    (agentSegment e aid).filter isBeforeTickHook = [] := by
  unfold agentSegment
  simp only [List.filter_append, List.filter_cons]
  rw [filter_map_false _ _ (fun a => by simp [isBeforeTickHook]) e.beforeAgentActionHooks]
  rw [filter_map_false _ _ (fun a => by simp [isBeforeTickHook]) e.afterAgentActionHooks]
  simp [isBeforeTickHook]

theorem agentSegment_filter_sched (e : TickEngine) (aid : String) :
    (agentSegment e aid).filter isSchedDispatch = [] := by
  unfold agentSegment
  simp only [List.filter_append, List.filter_cons]
  rw [filter_map_false _ _ (fun a => by simp [isSchedDispatch]) e.beforeAgentActionHooks]
  rw [filter_map_false _ _ (fun a => by simp [isSchedDispatch]) e.afterAgentActionHooks]
  simp [isSchedDispatch]

/-- C5 amended: in every executed tick's trace, all `before_tick` hook
invocations come before all due scheduled-event dispatches (the code's
order — the reverse of the spec's), all scheduled-event dispatches come
before every agent action execution, and all `before_tick` hook
invocations come before every agent action execution (so both phases
precede the agent actions even in ticks with no due events). -/
theorem tick_phase_order (e : TickEngine) :
    ((executeTickTrace e).1.filter (fun ev => isBeforeTickHook ev || isSchedDispatch ev) =
      (executeTickTrace e).1.filter isBeforeTickHook ++
        (executeTickTrace e).1.filter isSchedDispatch) ∧
    ((executeTickTrace e).1.filter (fun ev => isSchedDispatch ev || isAgentAction ev) =
      (executeTickTrace e).1.filter isSchedDispatch ++
        (executeTickTrace e).1.filter isAgentAction) ∧
    ((executeTickTrace e).1.filter (fun ev => isBeforeTickHook ev || isAgentAction ev) =
      (executeTickTrace e).1.filter isBeforeTickHook ++
        (executeTickTrace e).1.filter isAgentAction) := by
  have htrace : (executeTickTrace e).1 =
      e.beforeTickHooks.map (TraceEv.hookInvoked "before_tick") ++
      ((e.scheduledEvents.filter (fun ev => ev.tick = e.currentTick)).map
        (fun ev => TraceEv.schedDispatched ev.name) ++
      ((agentOrder e).flatMap (agentSegment e) ++
      (e.worldUpdateHooks.map (TraceEv.hookInvoked "world_update") ++
      (e.afterTickHooks.map (TraceEv.hookInvoked "after_tick") ++
       e.afterTickCompleteHooks.map (TraceEv.hookInvoked "after_tick_complete"))))) := by
    simp only [executeTickTrace, agentSegment]
    simp
    have hfun : (fun aid =>
        List.map (TraceEv.hookInvoked "before_agent_action") e.beforeAgentActionHooks ++
        TraceEv.agentActionExecuted aid ::
        List.map (TraceEv.hookInvoked "after_agent_action") e.afterAgentActionHooks) =
        agentSegment e := by
      funext aid
      rfl
    rw [hfun]
  rw [htrace]
  have hA_bt := filter_map_true (TraceEv.hookInvoked "before_tick") isBeforeTickHook
    (fun a => by simp [isBeforeTickHook]) e.beforeTickHooks
  have hA_sd := filter_map_false (TraceEv.hookInvoked "before_tick") isSchedDispatch
    (fun a => by simp [isSchedDispatch]) e.beforeTickHooks
  have hA_aa := filter_map_false (TraceEv.hookInvoked "before_tick") isAgentAction
    (fun a => by simp [isAgentAction]) e.beforeTickHooks
  have hB_bt := filter_map_false (fun ev : ScheduledEvent => TraceEv.schedDispatched ev.name)
    isBeforeTickHook (fun a => by simp [isBeforeTickHook])
    (e.scheduledEvents.filter (fun ev => ev.tick = e.currentTick))
  have hB_sd := filter_map_true (fun ev : ScheduledEvent => TraceEv.schedDispatched ev.name)
    isSchedDispatch (fun a => by simp [isSchedDispatch])
    (e.scheduledEvents.filter (fun ev => ev.tick = e.currentTick))
  have hB_aa := filter_map_false (fun ev : ScheduledEvent => TraceEv.schedDispatched ev.name)
    isAgentAction (fun a => by simp [isAgentAction])
    (e.scheduledEvents.filter (fun ev => ev.tick = e.currentTick))
  have hC_bt : ((agentOrder e).flatMap (agentSegment e)).filter isBeforeTickHook = [] := by
    rw [List.filter_flatMap]
    simp [agentSegment_filter_beforeTick]
  have hC_sd : ((agentOrder e).flatMap (agentSegment e)).filter isSchedDispatch = [] := by
    rw [List.filter_flatMap]
    simp [agentSegment_filter_sched]
  have hD_bt := filter_map_false (TraceEv.hookInvoked "world_update") isBeforeTickHook
    (fun a => by simp [isBeforeTickHook]) e.worldUpdateHooks
  have hD_sd := filter_map_false (TraceEv.hookInvoked "world_update") isSchedDispatch
    (fun a => by simp [isSchedDispatch]) e.worldUpdateHooks
  have hD_aa := filter_map_false (TraceEv.hookInvoked "world_update") isAgentAction
    (fun a => by simp [isAgentAction]) e.worldUpdateHooks
  have hE_bt := filter_map_false (TraceEv.hookInvoked "after_tick") isBeforeTickHook
    (fun a => by simp [isBeforeTickHook]) e.afterTickHooks
  have hE_sd := filter_map_false (TraceEv.hookInvoked "after_tick") isSchedDispatch
    (fun a => by simp [isSchedDispatch]) e.afterTickHooks
  have hE_aa := filter_map_false (TraceEv.hookInvoked "after_tick") isAgentAction
    (fun a => by simp [isAgentAction]) e.afterTickHooks
  have hF_bt := filter_map_false (TraceEv.hookInvoked "after_tick_complete") isBeforeTickHook
    (fun a => by simp [isBeforeTickHook]) e.afterTickCompleteHooks
  have hF_sd := filter_map_false (TraceEv.hookInvoked "after_tick_complete") isSchedDispatch
    (fun a => by simp [isSchedDispatch]) e.afterTickCompleteHooks
  have hF_aa := filter_map_false (TraceEv.hookInvoked "after_tick_complete") isAgentAction
    (fun a => by simp [isAgentAction]) e.afterTickCompleteHooks
  refine ⟨?_, ?_, ?_⟩
  · simp only [List.filter_append]
    rw [hA_bt, hA_sd, hB_bt, hB_sd, hC_bt, hC_sd, hD_bt, hD_sd, hE_bt, hE_sd, hF_bt, hF_sd]
    have h1 := filter_map_true (TraceEv.hookInvoked "before_tick")
      (fun ev => isBeforeTickHook ev || isSchedDispatch ev)
      (fun a => by simp [isBeforeTickHook]) e.beforeTickHooks
    have h2 := filter_map_true (fun ev : ScheduledEvent => TraceEv.schedDispatched ev.name)
      (fun ev => isBeforeTickHook ev || isSchedDispatch ev)
      (fun a => by simp [isSchedDispatch]) (e.scheduledEvents.filter
        (fun ev => ev.tick = e.currentTick))
    have h3 : ((agentOrder e).flatMap (agentSegment e)).filter
        (fun ev => isBeforeTickHook ev || isSchedDispatch ev) = [] := by
      rw [List.filter_flatMap]
      have : ∀ aid, (agentSegment e aid).filter
          (fun ev => isBeforeTickHook ev || isSchedDispatch ev) = [] := by
        intro aid
        unfold agentSegment
        simp only [List.filter_append, List.filter_cons]
        rw [filter_map_false _ _ (fun a => by simp [isBeforeTickHook, isSchedDispatch])
          e.beforeAgentActionHooks]
        rw [filter_map_false _ _ (fun a => by simp [isBeforeTickHook, isSchedDispatch])
          e.afterAgentActionHooks]
        simp [isBeforeTickHook, isSchedDispatch]
      simp [this]
    have h4 := filter_map_false (TraceEv.hookInvoked "world_update")
      (fun ev => isBeforeTickHook ev || isSchedDispatch ev)
      (fun a => by simp [isBeforeTickHook, isSchedDispatch]) e.worldUpdateHooks
    have h5 := filter_map_false (TraceEv.hookInvoked "after_tick")
      (fun ev => isBeforeTickHook ev || isSchedDispatch ev)
      (fun a => by simp [isBeforeTickHook, isSchedDispatch]) e.afterTickHooks
    have h6 := filter_map_false (TraceEv.hookInvoked "after_tick_complete")
      (fun ev => isBeforeTickHook ev || isSchedDispatch ev)
      (fun a => by simp [isBeforeTickHook, isSchedDispatch]) e.afterTickCompleteHooks
    rw [h1, h2, h3, h4, h5, h6]
    simp
  · simp only [List.filter_append]
    rw [hA_sd, hA_aa, hB_sd, hB_aa, hC_sd, hD_sd, hD_aa, hE_sd, hE_aa, hF_sd, hF_aa]
    have h1 := filter_map_false (TraceEv.hookInvoked "before_tick")
      (fun ev => isSchedDispatch ev || isAgentAction ev)
      (fun a => by simp [isSchedDispatch, isAgentAction]) e.beforeTickHooks
    have h2 := filter_map_true (fun ev : ScheduledEvent => TraceEv.schedDispatched ev.name)
      (fun ev => isSchedDispatch ev || isAgentAction ev)
      (fun a => by simp [isSchedDispatch]) (e.scheduledEvents.filter
        (fun ev => ev.tick = e.currentTick))
    have h3 : ((agentOrder e).flatMap (agentSegment e)).filter
        (fun ev => isSchedDispatch ev || isAgentAction ev) =
        ((agentOrder e).flatMap (agentSegment e)).filter isAgentAction := by
      rw [List.filter_flatMap, List.filter_flatMap]
      have : ∀ aid, (agentSegment e aid).filter
          (fun ev => isSchedDispatch ev || isAgentAction ev) =
          (agentSegment e aid).filter isAgentAction := by
        intro aid
        unfold agentSegment
        simp only [List.filter_append, List.filter_cons]
        rw [filter_map_false _ _ (fun a => by simp [isSchedDispatch, isAgentAction])
          e.beforeAgentActionHooks]
        rw [filter_map_false _ _ (fun a => by simp [isAgentAction])
          e.beforeAgentActionHooks]
        rw [filter_map_false _ _ (fun a => by simp [isSchedDispatch, isAgentAction])
          e.afterAgentActionHooks]
        rw [filter_map_false _ _ (fun a => by simp [isAgentAction])
          e.afterAgentActionHooks]
        simp [isSchedDispatch, isAgentAction]
      simp only [this]
    have h4 := filter_map_false (TraceEv.hookInvoked "world_update")
      (fun ev => isSchedDispatch ev || isAgentAction ev)
      (fun a => by simp [isSchedDispatch, isAgentAction]) e.worldUpdateHooks
    have h5 := filter_map_false (TraceEv.hookInvoked "after_tick")
      (fun ev => isSchedDispatch ev || isAgentAction ev)
      (fun a => by simp [isSchedDispatch, isAgentAction]) e.afterTickHooks
    have h6 := filter_map_false (TraceEv.hookInvoked "after_tick_complete")
      (fun ev => isSchedDispatch ev || isAgentAction ev)
      (fun a => by simp [isSchedDispatch, isAgentAction]) e.afterTickCompleteHooks
    rw [h1, h2, h3, h4, h5, h6]
    simp
  · simp only [List.filter_append]
    rw [hA_bt, hA_aa, hB_bt, hB_aa, hC_bt, hD_bt, hD_aa, hE_bt, hE_aa, hF_bt, hF_aa]
    have h1 := filter_map_true (TraceEv.hookInvoked "before_tick")
      (fun ev => isBeforeTickHook ev || isAgentAction ev)
      (fun a => by simp [isBeforeTickHook]) e.beforeTickHooks
    have h2 := filter_map_false (fun ev : ScheduledEvent => TraceEv.schedDispatched ev.name)
      (fun ev => isBeforeTickHook ev || isAgentAction ev)
      (fun a => by simp [isBeforeTickHook, isAgentAction])
      (e.scheduledEvents.filter (fun ev => ev.tick = e.currentTick))
    have h3 : ((agentOrder e).flatMap (agentSegment e)).filter
        (fun ev => isBeforeTickHook ev || isAgentAction ev) =
        ((agentOrder e).flatMap (agentSegment e)).filter isAgentAction := by
      rw [List.filter_flatMap, List.filter_flatMap]
      have : ∀ aid, (agentSegment e aid).filter
          (fun ev => isBeforeTickHook ev || isAgentAction ev) =
          (agentSegment e aid).filter isAgentAction := by
        intro aid
        unfold agentSegment
        simp only [List.filter_append, List.filter_cons]
        rw [filter_map_false _ _ (fun a => by simp [isBeforeTickHook, isAgentAction])
          e.beforeAgentActionHooks]
        rw [filter_map_false _ _ (fun a => by simp [isAgentAction])
          e.beforeAgentActionHooks]
        rw [filter_map_false _ _ (fun a => by simp [isBeforeTickHook, isAgentAction])
          e.afterAgentActionHooks]
        rw [filter_map_false _ _ (fun a => by simp [isAgentAction])
          e.afterAgentActionHooks]
        simp [isBeforeTickHook, isAgentAction]
      simp only [this]
    have h4 := filter_map_false (TraceEv.hookInvoked "world_update")
      (fun ev => isBeforeTickHook ev || isAgentAction ev)
      (fun a => by simp [isBeforeTickHook, isAgentAction]) e.worldUpdateHooks
    have h5 := filter_map_false (TraceEv.hookInvoked "after_tick")
      (fun ev => isBeforeTickHook ev || isAgentAction ev)
      (fun a => by simp [isBeforeTickHook, isAgentAction]) e.afterTickHooks
    have h6 := filter_map_false (TraceEv.hookInvoked "after_tick_complete")
      (fun ev => isBeforeTickHook ev || isAgentAction ev)
      (fun a => by simp [isBeforeTickHook, isAgentAction]) e.afterTickCompleteHooks
    rw [h1, h2, h3, h4, h5, h6]
    simp

end Thronglets
